import Mathlib

/-!
Verification development for the `juice` embedded UI engine.

The repository contains two generations of the same engine:
* `crates/jsui` (script host `engine.rs`, tree parser `tree.rs`, software
  framebuffer `render.rs`) together with the layout builder / hit tester of
  `crates/preact-embedded/src/layout.rs`;
* `crates/juice` (`dom.rs`, `renderer.rs`, `timers.rs`, `canvas.rs`,
  `inherited_style.rs`).

This file gives a shallow embedding of the parts of those crates that the
verified claims are about: JSON parsing (a model of `serde_json`), the typed
node trees and their deserializers, style inheritance, hit testing over a
laid-out tree, the script-host state machine (timers, listeners, microtask
queue), the renderer's tree-publish path, and the pixel-level canvas
primitives.  Rust `f32` values are modelled as exact rationals (`ℚ`); machine
integers are `Nat`/`Int` with explicit `% 2^w` where a Rust `as` cast can
truncate.  Rust panics (`unwrap`/`expect` on code paths that can actually
fail) are modelled as `Except.error`.
-/

/- Batteries marks the `Rat` field operations `@[irreducible]`; re-enable
unfolding locally so that concrete witnesses evaluate by `decide`/`rfl`. -/
attribute [local semireducible] Rat.add Rat.sub Rat.mul Rat.inv

/-! ## Basic string / number utilities -/

/-- Decide whether `c` is an ASCII decimal digit. -/
def isDigitChar (c : Char) : Bool := 48 ≤ c.toNat && c.toNat ≤ 57

/-- Fold a digit list into a natural number (most significant digit first). -/
def digitsToNat (ds : List Char) : Nat :=
  ds.foldl (fun acc c => acc * 10 + (c.toNat - 48)) 0

/-- Model of Rust `str::strip_suffix`: if `suf` is a suffix of `s`, return
`s` with that suffix removed. -/
def stripSuffix? (s suf : List Char) : Option (List Char) :=
  if suf.length ≤ s.length ∧ s.drop (s.length - suf.length) = suf then
    some (s.take (s.length - suf.length))
  else
    none

/-- Split a list at the first element satisfying `p`; returns the prefix and
the rest including the matching element. -/
def splitAtFirst (p : Char → Bool) : List Char → (List Char × List Char)
  | [] => ([], [])
  | c :: cs =>
    if p c then ([], c :: cs)
    else
      let (pre, post) := splitAtFirst p cs
      (c :: pre, post)

/-- Model of Rust `str::parse::<f32>` on decimal literals, with the value
represented exactly as a rational.  Accepted shapes: optional sign, then a
mantissa that contains at least one digit (`123`, `123.`, `.5`, `1.25`) and
at most one decimal point, then an optional exponent `e`/`E` with optional
sign and at least one digit.  The special forms `inf`/`infinity`/`nan`
accepted by Rust are not modelled (no claim depends on them), and the exact
`f32` rounding of the decimal value is not modelled: the claims below only
depend on which strings are accepted and on exactly representable values. -/
def parseF32? (cs : List Char) : Option ℚ :=
  let (sign, rest) :=
    match cs with
    | '+' :: r => ((1 : ℚ), r)
    | '-' :: r => ((-1 : ℚ), r)
    | r => ((1 : ℚ), r)
  let (mantissa, expPart) := splitAtFirst (fun c => c = 'e' || c = 'E') rest
  let (intPart, fracTail) := splitAtFirst (fun c => c = '.') mantissa
  let fracOk : Option (List Char) :=
    match fracTail with
    | [] => some []
    | '.' :: fs => if fs.all isDigitChar then some fs else none
    | _ => none
  match fracOk with
  | none => none
  | some fracPart =>
    if ¬ (intPart.all isDigitChar) then none
    else if intPart.isEmpty ∧ fracPart.isEmpty then none
    else
      let base : ℚ :=
        (digitsToNat intPart : ℚ) + (digitsToNat fracPart : ℚ) / ((10 : ℚ) ^ fracPart.length)
      let applyExp : Option ℚ :=
        match expPart with
        | [] => some base
        | _ :: es =>
          let (esign, edigits) :=
            match es with
            | '+' :: r => ((1 : Int), r)
            | '-' :: r => ((-1 : Int), r)
            | r => ((1 : Int), r)
          if edigits.isEmpty ∨ ¬ (edigits.all isDigitChar) then none
          else some (base * (10 : ℚ) ^ (esign * (digitsToNat edigits : Int)))
      applyExp.map (fun v => sign * v)

/-! ## JSON values

`Json` models `serde_json::Value`.  Arrays and objects use dedicated list
types so that every function over JSON values is plain structural recursion
(hence kernel-reducible, so concrete cases evaluate by `rfl`/`decide`).
Object fields keep insertion order; `lookupField` returns the first
occurrence of a key (`serde_json` maps without the `preserve_order` feature
deduplicate keys and the derived deserializers reject duplicate fields — no
claim below involves duplicate keys). -/

mutual

inductive Json where
  | null : Json
  | bool (b : Bool) : Json
  | num (q : ℚ) : Json
  | str (s : String) : Json
  | arr (items : JsonList) : Json
  | obj (fields : JsonFields) : Json

inductive JsonList where
  | nil : JsonList
  | cons (hd : Json) (tl : JsonList) : JsonList

inductive JsonFields where
  | nil : JsonFields
  | cons (key : String) (val : Json) (tl : JsonFields) : JsonFields

end

/-- First binding of `key` in an object's field list. -/
def lookupField : JsonFields → String → Option Json
  | .nil, _ => none
  | .cons k v tl, key => if k = key then some v else lookupField tl key

/-- Length of a `JsonList`. -/
def JsonList.length : JsonList → Nat
  | .nil => 0
  | .cons _ tl => 1 + tl.length

/-! ## JSON text parser

Models `serde_json::from_str`'s syntax layer: parse a single JSON value,
allowing surrounding whitespace, and reject trailing input.  Errors carry a
1-based column (the repository feeds single-line JSON into it, so line
tracking is not modelled; `\u` escapes are decoded without surrogate
pairing).  Internally errors carry the length of the remaining input at the
failure point, which the top-level wrapper converts into a column. -/

/-- Internal parse-error representation: message and remaining-input length. -/
abbrev JsonPErr := String × Nat

/-- Skip JSON whitespace. -/
def skipWs : List Char → List Char
  | c :: cs => if c = ' ' ∨ c = '\t' ∨ c = '\n' ∨ c = '\r' then skipWs cs else c :: cs
  | [] => []

/-- Match a literal keyword (`true`, `false`, `null`) prefix. -/
def matchLit : List Char → List Char → Option (List Char)
  | [], cs => some cs
  | _, [] => none
  | l :: ls, c :: cs => if l = c then matchLit ls cs else none

/-- Value of one hex digit. -/
def hexVal (c : Char) : Option Nat :=
  if isDigitChar c then some (c.toNat - 48)
  else if 'a' ≤ c ∧ c ≤ 'f' then some (c.toNat - 97 + 10)
  else if 'A' ≤ c ∧ c ≤ 'F' then some (c.toNat - 65 + 10)
  else none

/-- Decode a one-character JSON string escape (everything except `\u`). -/
def simpleEscape (e : Char) : Option Char :=
  if e = '"' then some '"'
  else if e = '\\' then some '\\'
  else if e = '/' then some '/'
  else if e = 'b' then some '\x08'
  else if e = 'f' then some '\x0c'
  else if e = 'n' then some '\n'
  else if e = 'r' then some '\r'
  else if e = 't' then some '\t'
  else none

/-- Parse the body of a JSON string (after the opening quote), returning the
decoded characters and the input after the closing quote. -/
def parseStringBody : List Char → Except JsonPErr (List Char × List Char)
  | [] => .error ("unexpected end of string", 0)
  | '"' :: rest => .ok ([], rest)
  | '\\' :: 'u' :: c1 :: c2 :: c3 :: c4 :: rest =>
    match hexVal c1, hexVal c2, hexVal c3, hexVal c4 with
    | some h1, some h2, some h3, some h4 =>
      match parseStringBody rest with
      | .error err => .error err
      | .ok (tail, rest2) =>
        .ok (Char.ofNat (((h1 * 16 + h2) * 16 + h3) * 16 + h4) :: tail, rest2)
    | _, _, _, _ => .error ("invalid unicode escape", rest.length + 4)
  | '\\' :: 'u' :: rest => .error ("invalid unicode escape", rest.length)
  | '\\' :: e :: rest =>
    match simpleEscape e with
    | some ch =>
      match parseStringBody rest with
      | .error err => .error err
      | .ok (tail, rest2) => .ok (ch :: tail, rest2)
    | none => .error ("invalid escape character", (e :: rest).length)
  | ['\\'] => .error ("unexpected end of string escape", 0)
  | c :: rest =>
    match parseStringBody rest with
    | .error err => .error err
    | .ok (tail, rest2) => .ok (c :: tail, rest2)

/-- Take a maximal run of decimal digits. -/
def takeDigits : List Char → (List Char × List Char)
  | [] => ([], [])
  | c :: cs =>
    if isDigitChar c then
      let (ds, rest) := takeDigits cs
      (c :: ds, rest)
    else ([], c :: cs)

/-- Parse a JSON number per the JSON grammar: optional `-`, integer part `0`
or nonzero-led digits, optional fraction, optional exponent. -/
def parseJsonNumber (cs : List Char) : Except JsonPErr (ℚ × List Char) :=
  let (neg, cs1) := match cs with | '-' :: r => (true, r) | r => (false, r)
  let intResult : Except JsonPErr (List Char × List Char) :=
    match cs1 with
    | '0' :: r => .ok (['0'], r)
    | c :: _ =>
      if isDigitChar c then
        let (ds, rest) := takeDigits cs1
        .ok (ds, rest)
      else .error ("expected digit", cs1.length)
    | [] => .error ("expected digit", 0)
  match intResult with
  | .error e => .error e
  | .ok (intDs, cs2) =>
    let fracResult : Except JsonPErr (List Char × List Char) :=
      match cs2 with
      | '.' :: r =>
        let (ds, rest) := takeDigits r
        if ds.isEmpty then .error ("expected fraction digits", r.length) else .ok (ds, rest)
      | r => .ok ([], r)
    match fracResult with
    | .error e => .error e
    | .ok (fracDs, cs3) =>
      let expResult : Except JsonPErr (Int × List Char) :=
        match cs3 with
        | 'e' :: r | 'E' :: r =>
          let (esign, r2) :=
            match r with
            | '+' :: r2 => ((1 : Int), r2)
            | '-' :: r2 => ((-1 : Int), r2)
            | r2 => ((1 : Int), r2)
          let (ds, rest) := takeDigits r2
          if ds.isEmpty then .error ("expected exponent digits", r2.length)
          else .ok (esign * (digitsToNat ds : Int), rest)
        | r => .ok (0, r)
      match expResult with
      | .error e => .error e
      | .ok (ex, cs4) =>
        let mag : ℚ :=
          ((digitsToNat intDs : ℚ) + (digitsToNat fracDs : ℚ) / ((10 : ℚ) ^ fracDs.length))
            * (10 : ℚ) ^ ex
        .ok (if neg then -mag else mag, cs4)

mutual

/-- Parse one JSON value.  `fuel` bounds the nesting depth; the top-level
wrapper passes the input length, which always suffices because every nested
value consumes at least one character. -/
def parseValue (fuel : Nat) (cs : List Char) : Except JsonPErr (Json × List Char) :=
  match fuel with
  | 0 => .error ("recursion limit exceeded", cs.length)
  | fuel + 1 =>
    match skipWs cs with
    | [] => .error ("unexpected end of input", 0)
    | c :: rest =>
      if c = 'n' then
        match matchLit ['u', 'l', 'l'] rest with
        | some rest2 => .ok (.null, rest2)
        | none => .error ("expected null", (c :: rest).length)
      else if c = 't' then
        match matchLit ['r', 'u', 'e'] rest with
        | some rest2 => .ok (.bool true, rest2)
        | none => .error ("expected true", (c :: rest).length)
      else if c = 'f' then
        match matchLit ['a', 'l', 's', 'e'] rest with
        | some rest2 => .ok (.bool false, rest2)
        | none => .error ("expected false", (c :: rest).length)
      else if c = '"' then
        match parseStringBody rest with
        | .error e => .error e
        | .ok (body, rest2) => .ok (.str (String.mk body), rest2)
      else if c = '[' then
        match skipWs rest with
        | ']' :: rest2 => .ok (.arr .nil, rest2)
        | rest2 =>
          match parseArrayItems fuel rest2 with
          | .error e => .error e
          | .ok (items, rest3) => .ok (.arr items, rest3)
      else if c = '{' then
        match skipWs rest with
        | '}' :: rest2 => .ok (.obj .nil, rest2)
        | rest2 =>
          match parseObjMembers fuel rest2 with
          | .error e => .error e
          | .ok (fields, rest3) => .ok (.obj fields, rest3)
      else if c = '-' ∨ isDigitChar c then
        match parseJsonNumber (c :: rest) with
        | .error e => .error e
        | .ok (q, rest2) => .ok (.num q, rest2)
      else .error ("expected value", (c :: rest).length)

/-- Parse the elements of a non-empty JSON array (after `[` and leading
whitespace), including the closing `]`. -/
def parseArrayItems (fuel : Nat) (cs : List Char) : Except JsonPErr (JsonList × List Char) :=
  match fuel with
  | 0 => .error ("recursion limit exceeded", cs.length)
  | fuel + 1 =>
    match parseValue fuel cs with
    | .error e => .error e
    | .ok (v, rest) =>
      match skipWs rest with
      | ']' :: rest2 => .ok (.cons v .nil, rest2)
      | ',' :: rest2 =>
        match parseArrayItems fuel rest2 with
        | .error e => .error e
        | .ok (items, rest3) => .ok (.cons v items, rest3)
      | rest2 => .error ("expected comma or close bracket", rest2.length)

/-- Parse the members of a non-empty JSON object (after the opening brace and
leading whitespace), including the closing brace. -/
def parseObjMembers (fuel : Nat) (cs : List Char) : Except JsonPErr (JsonFields × List Char) :=
  match fuel with
  | 0 => .error ("recursion limit exceeded", cs.length)
  | fuel + 1 =>
    match skipWs cs with
    | '"' :: rest =>
      match parseStringBody rest with
      | .error e => .error e
      | .ok (key, rest2) =>
        match skipWs rest2 with
        | ':' :: rest3 =>
          match parseValue fuel rest3 with
          | .error e => .error e
          | .ok (v, rest4) =>
            match skipWs rest4 with
            | '}' :: rest5 => .ok (.cons (String.mk key) v .nil, rest5)
            | ',' :: rest5 =>
              match parseObjMembers fuel rest5 with
              | .error e => .error e
              | .ok (fields, rest6) => .ok (.cons (String.mk key) v fields, rest6)
            | rest5 => .error ("expected comma or close brace", rest5.length)
        | rest3 => .error ("expected colon", rest3.length)
    | rest => .error ("key must be a string", rest.length)

end

/-- Model of `serde_json::from_str`'s syntax layer on a whole input: parse one
value, reject trailing characters.  Errors carry a 1-based column into the
input, as `serde_json::Error::column` does for single-line input. -/
def jsonParse (s : String) : Except (String × Nat) Json :=
  let cs := s.data
  let n := cs.length
  match parseValue (n + 1) cs with
  | .error (msg, remLen) => .error (msg, n - remLen + 1)
  | .ok (j, rest) =>
    match skipWs rest with
    | [] => .ok j
    | rest2 => .error ("trailing characters", n - rest2.length + 1)

/-! ## Rendering JSON back to text

`WidgetNode::deserialize` stringifies a non-string `text` field with
`Value::to_string()`; this models `serde_json`'s compact rendering.  A
non-terminating decimal is truncated at 64 digits and string escapes are
limited to the characters the repository feeds through this path; no claim
depends on the exact rendering of exotic values. -/

/-- Decimal digits of `num/den` after the point, up to `fuel` digits. -/
def fracDigitsStr (fuel num den : Nat) : String :=
  match fuel with
  | 0 => ""
  | fuel + 1 =>
    if num = 0 then ""
    else toString (num * 10 / den) ++ fracDigitsStr fuel (num * 10 % den) den

/-- Render a rational as a JSON number literal. -/
def ratLitString (q : ℚ) : String :=
  let sign := if q.num < 0 then "-" else ""
  let intPart := q.num.natAbs / q.den
  let frac := q.num.natAbs % q.den
  if frac = 0 then sign ++ toString intPart
  else sign ++ toString intPart ++ "." ++ fracDigitsStr 64 frac q.den

/-- Escape a string for JSON output. -/
def jsonEscapeStr (s : String) : String :=
  String.join (s.data.map (fun c =>
    if c = '"' then "\\\""
    else if c = '\\' then "\\\\"
    else if c = '\n' then "\\n"
    else if c = '\r' then "\\r"
    else if c = '\t' then "\\t"
    else String.mk [c]))

mutual

/-- Compact rendering, modelling `serde_json::Value::to_string()`. -/
def jsonToString : Json → String
  | .null => "null"
  | .bool true => "true"
  | .bool false => "false"
  | .num q => ratLitString q
  | .str s => "\"" ++ jsonEscapeStr s ++ "\""
  | .arr items => "[" ++ jsonListToString items ++ "]"
  | .obj fields => "\x7b" ++ jsonFieldsToString fields ++ "\x7d"

/-- Render array elements, comma separated. -/
def jsonListToString : JsonList → String
  | .nil => ""
  | .cons hd .nil => jsonToString hd
  | .cons hd tl => jsonToString hd ++ "," ++ jsonListToString tl

/-- Render object members, comma separated. -/
def jsonFieldsToString : JsonFields → String
  | .nil => ""
  | .cons k v .nil => "\"" ++ jsonEscapeStr k ++ "\":" ++ jsonToString v
  | .cons k v tl => "\"" ++ jsonEscapeStr k ++ "\":" ++ jsonToString v ++ "," ++ jsonFieldsToString tl

end

/-! ## Shared serde field models -/

/-- Derived-serde `Option<String>` field: null is `None`, a string is `Some`,
anything else is a type error. -/
def optStringFromJson : Json → Except String (Option String)
  | .null => .ok none
  | .str s => .ok (some s)
  | _ => .error "invalid type: expected a string"

/-- JSON number to `u32`: must be an unsigned integer within range. -/
def u32FromNum (q : ℚ) : Option Nat :=
  if q.den = 1 ∧ 0 ≤ q.num ∧ q.num < 4294967296 then some q.num.toNat else none

/-- Derived-serde `Option<u32>` field. -/
def optU32FromJson : Json → Except String (Option Nat)
  | .null => .ok none
  | .num q =>
    match u32FromNum q with
    | some n => .ok (some n)
    | none => .error "invalid value: expected u32"
  | _ => .error "invalid type: expected u32"

/-! ## `crates/jsui/src/tree.rs` — widget-tree model -/

namespace Jsui

/-- Model of `tree.rs::parse_px`: strip an optional `px` suffix and parse as
`f32`, `None` on failure. -/
def parse_px (s : String) : Option ℚ :=
  parseF32? ((stripSuffix? s.data "px".data).getD s.data)

/-- Model of `tree.rs::deserialize_opt_px` applied to a present field value:
numbers pass through, strings go through `parse_px` (silently `None` on
failure), every other JSON value silently becomes `None`. -/
def optPxOfJson : Json → Option ℚ
  | .null => none
  | .num q => some q
  | .str s => parse_px s
  | _ => none

/-- `tree.rs::DimensionValue`. -/
inductive DimensionValue where
  | length (v : ℚ)
  | percent (v : ℚ)
  deriving DecidableEq

/-- Model of `DimensionValue::deserialize`: a number is a length; a string is
tried as `"N%"`, then `"Npx"`, then a bare numeric string, and is an error
otherwise; any other JSON value is an error. -/
def dimensionValueFromJson : Json → Except String DimensionValue
  | .num q => .ok (.length q)
  | .str s =>
    match stripSuffix? s.data "%".data with
    | some pct =>
      match parseF32? pct with
      | some v => .ok (.percent (v / 100))
      | none => .error ("invalid dimension: " ++ s)
    | none =>
      match stripSuffix? s.data "px".data with
      | some px =>
        match parseF32? px with
        | some v => .ok (.length v)
        | none => .error ("invalid dimension: " ++ s)
      | none =>
        match parseF32? s.data with
        | some v => .ok (.length v)
        | none => .error ("invalid dimension: " ++ s)
  | _ => .error "expected number or string for dimension"

/-- `tree.rs::StyleProps` (all fields optional; `border_radius` etc. use the
lenient `deserialize_opt_px`). -/
structure StyleProps where
  background : Option String := none
  borderRadius : Option ℚ := none
  color : Option String := none
  font : Option String := none
  fontSize : Option ℚ := none
  flexDirection : Option String := none
  flexGrow : Option ℚ := none
  flexShrink : Option ℚ := none
  width : Option DimensionValue := none
  height : Option DimensionValue := none
  padding : Option ℚ := none
  paddingLeft : Option ℚ := none
  paddingRight : Option ℚ := none
  paddingTop : Option ℚ := none
  paddingBottom : Option ℚ := none
  gap : Option ℚ := none
  deriving DecidableEq

/-- `tree.rs::Props`. -/
structure Props where
  style : Option StyleProps := none
  id : Option Nat := none
  deriving DecidableEq

/-- Visitor for the derived `StyleProps` deserializer: walk the map entries,
fill the matching field, ignore unknown keys, propagate type errors from the
strict fields (`background`/`color`/`font`/`flex_direction` strings and the
`width`/`height` dimension values); the `deserialize_opt_px` fields never
error.  Serde's duplicate-field error is not modelled (later occurrences of
a key overwrite earlier ones; no claim involves duplicate keys). -/
def stylePropsVisit : JsonFields → StyleProps → Except String StyleProps
  | .nil, acc => .ok acc
  | .cons k v tl, acc => do
    let acc ←
      if k = "background" then (optStringFromJson v).map (fun s => {acc with background := s})
      else if k = "borderRadius" then .ok {acc with borderRadius := optPxOfJson v}
      else if k = "color" then (optStringFromJson v).map (fun s => {acc with color := s})
      else if k = "font" then (optStringFromJson v).map (fun s => {acc with font := s})
      else if k = "fontSize" then .ok {acc with fontSize := optPxOfJson v}
      else if k = "flexDirection" then (optStringFromJson v).map (fun s => {acc with flexDirection := s})
      else if k = "flexGrow" then .ok {acc with flexGrow := optPxOfJson v}
      else if k = "flexShrink" then .ok {acc with flexShrink := optPxOfJson v}
      else if k = "width" then
        match v with
        | .null => .ok {acc with width := none}
        | _ => (dimensionValueFromJson v).map (fun d => {acc with width := some d})
      else if k = "height" then
        match v with
        | .null => .ok {acc with height := none}
        | _ => (dimensionValueFromJson v).map (fun d => {acc with height := some d})
      else if k = "padding" then .ok {acc with padding := optPxOfJson v}
      else if k = "paddingLeft" then .ok {acc with paddingLeft := optPxOfJson v}
      else if k = "paddingRight" then .ok {acc with paddingRight := optPxOfJson v}
      else if k = "paddingTop" then .ok {acc with paddingTop := optPxOfJson v}
      else if k = "paddingBottom" then .ok {acc with paddingBottom := optPxOfJson v}
      else if k = "gap" then .ok {acc with gap := optPxOfJson v}
      else .ok acc
    stylePropsVisit tl acc

/-- Derived `StyleProps` deserializer entry point (expects a map). -/
def stylePropsFromJson : Json → Except String StyleProps
  | .obj fields => stylePropsVisit fields {}
  | _ => .error "invalid type: expected struct StyleProps"

/-- Visitor for the derived `Props` deserializer. -/
def propsVisit : JsonFields → Props → Except String Props
  | .nil, acc => .ok acc
  | .cons k v tl, acc => do
    let acc ←
      if k = "style" then
        match v with
        | .null => .ok {acc with style := none}
        | _ => (stylePropsFromJson v).map (fun s => {acc with style := some s})
      else if k = "id" then (optU32FromJson v).map (fun i => {acc with id := i})
      else .ok acc
    propsVisit tl acc

/-- Derived `Props` deserializer entry point. -/
def propsFromJsonStrict : Json → Except String Props
  | .obj fields => propsVisit fields {}
  | _ => .error "invalid type: expected struct Props"

/-- `tree.rs::WidgetNode`. -/
inductive WidgetNode where
  | text (s : String)
  | element (nodeType : String) (props : Props) (children : List WidgetNode)

/-- The `text` field of a `#text` node: a string is taken as is, any other
present value is stringified with `Value::to_string()`, a missing field
yields the empty string. -/
def textFieldOf (fields : JsonFields) : String :=
  match lookupField fields "text" with
  | some (.str s) => s
  | some other => jsonToString other
  | none => ""

/-- The `props` field: parsed with the derived `Props` deserializer,
falling back to the default on a parse failure or a missing field
(`unwrap_or_default`). -/
def propsFieldOf (fields : JsonFields) : Props :=
  match lookupField fields "props" with
  | some v => (propsFromJsonStrict v).toOption.getD {}
  | none => {}

mutual

/-- Model of `WidgetNode::deserialize` (`tree.rs`): the input must be an
object carrying a string `type`; `"#text"` becomes a text node and EVERY
other tag becomes an element carrying that tag; `props` and `children` fall
back to defaults if missing or malformed. -/
def widgetNodeFromJson (j : Json) : Except String WidgetNode :=
  match j with
  | .obj fields =>
    match lookupField fields "type" with
    | some (.str t) =>
      if t = "#text" then .ok (.text (textFieldOf fields))
      else .ok (.element t (propsFieldOf fields) (childrenFieldOf fields))
    | some _ => .error "missing type"
    | none => .error "missing type"
  | _ => .error "expected object"

/-- The `children` field: parsed as `Vec<WidgetNode>`, falling back to the
empty vector on a parse failure or a missing field (`unwrap_or_default`). -/
def childrenFieldOf : JsonFields → List WidgetNode
  | .nil => []
  | .cons k v tl =>
    if k = "children" then (widgetNodesFromJson v).toOption.getD []
    else childrenFieldOf tl

/-- `Vec<WidgetNode>` deserializer: the value must be an array and every
element must parse. -/
def widgetNodesFromJson (j : Json) : Except String (List WidgetNode) :=
  match j with
  | .arr items => widgetNodeListFrom items
  | _ => .error "invalid type: expected a sequence"

/-- Parse each element of a JSON array as a `WidgetNode`. -/
def widgetNodeListFrom : JsonList → Except String (List WidgetNode)
  | .nil => .ok []
  | .cons hd tl => do
    let n ← widgetNodeFromJson hd
    let ns ← widgetNodeListFrom tl
    pure (n :: ns)

end

/-- Model of `tree.rs::parse_tree` (`serde_json::from_str::<WidgetNode>`).
Syntax errors carry their column; data-layer errors are reported at the end
of the input (serde buffers the value before the visitor rejects it). -/
def parse_tree (s : String) : Except (String × Nat) WidgetNode :=
  match jsonParse s with
  | .error e => .error e
  | .ok j =>
    match widgetNodeFromJson j with
    | .ok w => .ok w
    | .error m => .error (m, s.data.length + 1)

end Jsui

/-! ### Decidable equality helpers -/

/-- Decidable equality on `Except` results (used to evaluate concrete
parses with `decide`). -/
instance {ε α : Type} [DecidableEq ε] [DecidableEq α] : DecidableEq (Except ε α) := fun a b =>
  match a, b with
  | .ok x, .ok y =>
    if h : x = y then .isTrue (by rw [h]) else .isFalse (fun hh => h (Except.ok.inj hh))
  | .error x, .error y =>
    if h : x = y then .isTrue (by rw [h]) else .isFalse (fun hh => h (Except.error.inj hh))
  | .ok _, .error _ => .isFalse (fun hh => Except.noConfusion hh)
  | .error _, .ok _ => .isFalse (fun hh => Except.noConfusion hh)

namespace Jsui

mutual

/-- Decidable equality on widget nodes. -/
def widgetNodeDecEq : (a b : WidgetNode) → Decidable (a = b)
  | .text s, .text t =>
    match decEq s t with
    | .isTrue h => .isTrue (by rw [h])
    | .isFalse h => .isFalse (fun hh => by cases hh; exact h rfl)
  | .text _, .element _ _ _ => .isFalse (fun hh => WidgetNode.noConfusion hh)
  | .element _ _ _, .text _ => .isFalse (fun hh => WidgetNode.noConfusion hh)
  | .element t1 p1 c1, .element t2 p2 c2 =>
    match decEq t1 t2 with
    | .isFalse h => .isFalse (fun hh => by cases hh; exact h rfl)
    | .isTrue h1 =>
      match decEq p1 p2 with
      | .isFalse h => .isFalse (fun hh => by cases hh; exact h rfl)
      | .isTrue h2 =>
        match widgetNodeListDecEq c1 c2 with
        | .isFalse h => .isFalse (fun hh => by cases hh; exact h rfl)
        | .isTrue h3 => .isTrue (by rw [h1, h2, h3])

/-- Decidable equality on lists of widget nodes. -/
def widgetNodeListDecEq : (a b : List WidgetNode) → Decidable (a = b)
  | [], [] => .isTrue rfl
  | [], _ :: _ => .isFalse (fun hh => List.noConfusion hh)
  | _ :: _, [] => .isFalse (fun hh => List.noConfusion hh)
  | x :: xs, y :: ys =>
    match widgetNodeDecEq x y with
    | .isFalse h => .isFalse (fun hh => by cases hh; exact h rfl)
    | .isTrue h1 =>
      match widgetNodeListDecEq xs ys with
      | .isFalse h => .isFalse (fun hh => by cases hh; exact h rfl)
      | .isTrue h2 => .isTrue (by rw [h1, h2])

end

instance : DecidableEq WidgetNode := widgetNodeDecEq

end Jsui

/-! ## `crates/juice/src` — DOM model -/

namespace Juice

/-- `canvas.rs::RgbColor`. -/
structure RgbColor where
  r : Nat
  g : Nat
  b : Nat
  deriving DecidableEq

/-- `RgbColor::from_array`. -/
def RgbColor.from_array (rgb : Nat × Nat × Nat) : RgbColor :=
  ⟨rgb.1, rgb.2.1, rgb.2.2⟩

/-- The subset of `taffy::Dimension` used by `dom.rs`. -/
inductive Dimension where
  | length (v : ℚ)
  | percent (v : ℚ)
  | auto
  deriving DecidableEq

/-- Model of `dom.rs::parse_dimension`: an `"Npx"` suffix parses to a length
and an `"N%"` suffix to a percentage; on a parse failure of the numeric part
or for any other string (including bare numeric strings) it silently falls
back to `Dimension::auto`.  It never reports an error. -/
def parse_dimension (s : String) : Dimension :=
  match stripSuffix? s.data "px".data with
  | some n =>
    match parseF32? n with
    | some v => .length v
    | none => .auto
  | none =>
    match stripSuffix? s.data "%".data with
    | some n =>
      match parseF32? n with
      | some v => .percent (v / 100)
      | none => .auto
    | none => .auto

/-- The named fields of the `Node::Element` variant (`dom.rs`), with their
serde defaults.  `[u8; 3]` colors and `[f32; 4]` edge arrays are modelled as
tuples. -/
structure ElementData where
  id : Option Nat := none
  align_items : Option String := none
  align_self : Option String := none
  background : Option (Nat × Nat × Nat) := none
  border_radius : Option ℚ := none
  color : Option (Nat × Nat × Nat) := none
  font : Option String := none
  font_size : Option ℚ := none
  flex_direction : Option String := none
  flex_grow : Option ℚ := none
  flex_shrink : Option ℚ := none
  width : String := ""
  height : String := ""
  padding : Option (ℚ × ℚ × ℚ × ℚ) := none
  margin : Option (ℚ × ℚ × ℚ × ℚ) := none
  gap : Option ℚ := none
  deriving DecidableEq

mutual

/-- `dom.rs::Node`: the closed set of tree variants, tagged by `type`. -/
inductive Node where
  | element (data : ElementData) (children : NodeList)
  | text (text : String)
  | svg (id : Option Nat) (markup : String) (width height : String)

/-- List of child nodes (a dedicated type keeps all recursion structural). -/
inductive NodeList where
  | nil : NodeList
  | cons (hd : Node) (tl : NodeList) : NodeList

end

/-- Derived-serde `Option<f32>` field: only null or a number is accepted. -/
def optF32FromJson : Json → Except String (Option ℚ)
  | .null => .ok none
  | .num q => .ok (some q)
  | _ => .error "invalid type: expected f32"

/-- JSON number to `u8`: must be an unsigned integer below 256. -/
def u8FromNum (q : ℚ) : Option Nat :=
  if q.den = 1 ∧ 0 ≤ q.num ∧ q.num < 256 then some q.num.toNat else none

/-- Derived-serde `Option<[u8; 3]>` field: null, or an array of exactly three
in-range integers. -/
def optU8x3FromJson : Json → Except String (Option (Nat × Nat × Nat))
  | .null => .ok none
  | .arr (.cons (.num a) (.cons (.num b) (.cons (.num c) .nil))) =>
    match u8FromNum a, u8FromNum b, u8FromNum c with
    | some x, some y, some z => .ok (some (x, y, z))
    | _, _, _ => .error "invalid value: expected u8"
  | _ => .error "invalid type: expected [u8; 3]"

/-- Derived-serde `Option<[f32; 4]>` field: null, or an array of exactly four
numbers. -/
def optF32x4FromJson : Json → Except String (Option (ℚ × ℚ × ℚ × ℚ))
  | .null => .ok none
  | .arr (.cons (.num a) (.cons (.num b) (.cons (.num c) (.cons (.num d) .nil)))) =>
    .ok (some (a, b, c, d))
  | _ => .error "invalid type: expected [f32; 4]"

/-- Derived-serde `String` field (no default applies to a present value, so
null or a non-string is a type error). -/
def strictStringFromJson : Json → Except String String
  | .str s => .ok s
  | _ => .error "invalid type: expected a string"

/-- One non-`children` field of the `element` variant: update the
accumulator according to the field's serde type, ignoring unknown keys (and
the already-consumed `type` tag). -/
def elementField (k : String) (v : Json) (d : ElementData) : Except String ElementData :=
  if k = "id" then (optU32FromJson v).map (fun x => {d with id := x})
  else if k = "alignItems" then (optStringFromJson v).map (fun x => {d with align_items := x})
  else if k = "alignSelf" then (optStringFromJson v).map (fun x => {d with align_self := x})
  else if k = "background" then (optU8x3FromJson v).map (fun x => {d with background := x})
  else if k = "borderRadius" then (optF32FromJson v).map (fun x => {d with border_radius := x})
  else if k = "color" then (optU8x3FromJson v).map (fun x => {d with color := x})
  else if k = "font" then (optStringFromJson v).map (fun x => {d with font := x})
  else if k = "fontSize" then (optF32FromJson v).map (fun x => {d with font_size := x})
  else if k = "flexDirection" then (optStringFromJson v).map (fun x => {d with flex_direction := x})
  else if k = "flexGrow" then (optF32FromJson v).map (fun x => {d with flex_grow := x})
  else if k = "flexShrink" then (optF32FromJson v).map (fun x => {d with flex_shrink := x})
  else if k = "width" then (strictStringFromJson v).map (fun x => {d with width := x})
  else if k = "height" then (strictStringFromJson v).map (fun x => {d with height := x})
  else if k = "padding" then (optF32x4FromJson v).map (fun x => {d with padding := x})
  else if k = "margin" then (optF32x4FromJson v).map (fun x => {d with margin := x})
  else if k = "gap" then (optF32FromJson v).map (fun x => {d with gap := x})
  else .ok d

/-- The `svg` variant: `markup` is required, `id` optional, `width`/`height`
default to the empty string. -/
def svgFromFields (fields : JsonFields) : Except String Node :=
  match (match lookupField fields "id" with
         | none => .ok none
         | some v => optU32FromJson v : Except String (Option Nat)) with
  | .error e => .error e
  | .ok id =>
    match lookupField fields "markup" with
    | some (.str markup) =>
      match (match lookupField fields "width" with
             | none => .ok ""
             | some v => strictStringFromJson v : Except String String) with
      | .error e => .error e
      | .ok width =>
        match (match lookupField fields "height" with
               | none => .ok ""
               | some v => strictStringFromJson v : Except String String) with
        | .error e => .error e
        | .ok height => .ok (.svg id markup width height)
    | some _ => .error "invalid type for field markup"
    | none => .error "missing field markup"

mutual

/-- Model of the derived internally-tagged deserializer for `dom.rs::Node`
(`#[serde(tag = "type")]`): the input must be a map whose `type` field is one
of `"element"`, `"text"`, `"svg"`; any other tag is an unknown-variant
error.  Unknown fields inside a variant are ignored; wrongly typed known
fields are errors; a malformed child in `children` propagates as an error. -/
def nodeFromJson (j : Json) : Except String Node :=
  match j with
  | .obj fields =>
    match lookupField fields "type" with
    | some (.str t) =>
      if t = "element" then
        match elementVisit fields {} none with
        | .error e => .error e
        | .ok (d, cs) => .ok (.element d (cs.getD .nil))
      else if t = "text" then
        match lookupField fields "text" with
        | some (.str s) => .ok (.text s)
        | some _ => .error "invalid type for field text"
        | none => .error "missing field text"
      else if t = "svg" then svgFromFields fields
      else .error ("unknown variant " ++ t)
    | some _ => .error "invalid type: tag must be a string"
    | none => .error "missing field type"
  | _ => .error "invalid type: expected map"

/-- Walk the element variant's map entries, filling the field accumulator
and parsing `children` strictly. -/
def elementVisit (fields : JsonFields) (d : ElementData) (cs : Option NodeList) :
    Except String (ElementData × Option NodeList) :=
  match fields with
  | .nil => .ok (d, cs)
  | .cons k v tl =>
    if k = "children" then
      match nodeListFromJson v with
      | .error e => .error e
      | .ok ns => elementVisit tl d (some ns)
    else
      match elementField k v d with
      | .error e => .error e
      | .ok d2 => elementVisit tl d2 cs

/-- `Vec<Node>` deserializer: the value must be an array and every element
must parse (errors propagate, unlike the jsui widget tree). -/
def nodeListFromJson (j : Json) : Except String NodeList :=
  match j with
  | .arr items => nodeItemsFrom items
  | _ => .error "invalid type: expected a sequence"

/-- Parse each element of a JSON array as a `Node`. -/
def nodeItemsFrom (items : JsonList) : Except String NodeList :=
  match items with
  | .nil => .ok .nil
  | .cons hd tl =>
    match nodeFromJson hd with
    | .error e => .error e
    | .ok n =>
      match nodeItemsFrom tl with
      | .error e => .error e
      | .ok ns => .ok (.cons n ns)

end

/-! ### `inherited_style.rs` -/

/-- `InheritedStyle`: the resolved text style passed down the tree. -/
structure InheritedStyle where
  color : RgbColor
  font_name : String
  font_size : ℚ
  deriving DecidableEq

/-- `InheritedStyle::new`: white text, the engine default font, size 24. -/
def InheritedStyle.new (default_font : String) : InheritedStyle :=
  { color := ⟨255, 255, 255⟩, font_name := default_font, font_size := 24 }

/-- `InheritedStyle::clone_and_override`: each field is replaced when an
override is present and kept otherwise. -/
def InheritedStyle.clone_and_override (s : InheritedStyle)
    (color : Option RgbColor) (font_name : Option String) (font_size : Option ℚ) :
    InheritedStyle :=
  { color := color.getD s.color
    font_name := font_name.getD s.font_name
    font_size := font_size.getD s.font_size }

/-! ### `dom.rs::build_node` -/

/-- `dom.rs::NodeContext`: the per-node payload stored in the layout tree. -/
inductive NodeContext where
  | element (background : Option RgbColor) (border_radius : ℚ) (js_id : Option Nat)
  | text (content : String) (color : RgbColor) (font_name : String) (font_size : ℚ)
  | svg (markup : String) (js_id : Option Nat) (inherited_color : RgbColor)
  deriving DecidableEq

/-- `taffy::AlignItems`/`AlignSelf` values used by `build_node`. -/
inductive AlignVal where
  | flexStart
  | center
  | flexEnd
  | stretch
  deriving DecidableEq

/-- Flex direction. -/
inductive FlexDir where
  | row
  | column
  deriving DecidableEq

/-- The `taffy::Style` fields that `build_node` sets (display is always
flex; everything else defaults as in `Style::default()`). -/
structure TStyle where
  align_items : Option AlignVal := none
  align_self : Option AlignVal := none
  flex_direction : FlexDir := .row
  flex_grow : ℚ := 0
  flex_shrink : ℚ := 1
  width : Dimension := .auto
  height : Dimension := .auto
  padding : ℚ × ℚ × ℚ × ℚ := (0, 0, 0, 0)
  margin : ℚ × ℚ × ℚ × ℚ := (0, 0, 0, 0)
  gap : ℚ := 0
  deriving DecidableEq

/-- The string-to-alignment mapping used for both `align_items` and
`align_self` in `build_node`. -/
def parseAlign : Option String → Option AlignVal
  | some "flex-start" => some .flexStart
  | some "center" => some .center
  | some "flex-end" => some .flexEnd
  | some "stretch" => some .stretch
  | _ => none

mutual

/-- The tree of styles and node contexts that `dom.rs::build_node` inserts
into the taffy arena; children appear in declaration order.  (The taffy
layout *solver* that later computes boxes from these styles is the external
collaborator of spec §4.2 and is not modelled.) -/
inductive CTree where
  | mk (style : TStyle) (ctx : NodeContext) (children : CTreeList)

/-- Children of a built node. -/
inductive CTreeList where
  | nil : CTreeList
  | cons (hd : CTree) (tl : CTreeList) : CTreeList

end

mutual

/-- Model of `dom.rs::build_node`: text leaves capture the inherited style;
svg leaves capture the inherited color and their declared size; elements
override the inherited style for their whole subtree and build a flex
container style. -/
def build_node (node : Node) (inherited_style : InheritedStyle) : CTree :=
  match node with
  | .text t =>
    .mk {} (.text t inherited_style.color inherited_style.font_name inherited_style.font_size) .nil
  | .svg id markup width height =>
    .mk { width := parse_dimension width, height := parse_dimension height }
      (.svg markup id inherited_style.color) .nil
  | .element d children =>
    let child_style :=
      inherited_style.clone_and_override (d.color.map RgbColor.from_array) d.font d.font_size
    let built := build_nodes children child_style
    let style : TStyle :=
      { align_items := parseAlign d.align_items
        align_self := parseAlign d.align_self
        flex_direction := if d.flex_direction = some "column" then .column else .row
        flex_grow := d.flex_grow.getD 0
        flex_shrink := d.flex_shrink.getD 1
        width := parse_dimension d.width
        height := parse_dimension d.height
        padding := d.padding.getD (0, 0, 0, 0)
        margin := d.margin.getD (0, 0, 0, 0)
        gap := d.gap.getD 0 }
    .mk style (.element (d.background.map RgbColor.from_array) (d.border_radius.getD 0) d.id) built

/-- Build each child with the (possibly overridden) style of the parent. -/
def build_nodes (children : NodeList) (inherited_style : InheritedStyle) : CTreeList :=
  match children with
  | .nil => .nil
  | .cons hd tl => .cons (build_node hd inherited_style) (build_nodes tl inherited_style)

end

/-! ### Effective text styles: code side and spec side -/

/-- The effective style of one text leaf. -/
structure TextCtx where
  content : String
  color : RgbColor
  font_name : String
  font_size : ℚ
  deriving DecidableEq

mutual

/-- All text contexts of a built tree, in document order. -/
def textContexts : CTree → List TextCtx
  | .mk _ ctx children =>
    (match ctx with
     | .text c col f fs => [⟨c, col, f, fs⟩]
     | _ => []) ++ textContextsList children

/-- Text contexts of a child list. -/
def textContextsList : CTreeList → List TextCtx
  | .nil => []
  | .cons hd tl => textContexts hd ++ textContextsList tl

end

/-- The style fields an element declares (spec-side view of an ancestor). -/
structure StyleDecl where
  color : Option RgbColor
  font : Option String
  font_size : Option ℚ

/-- Spec-side resolution: the nearest ancestor's declared value for a field,
or the root default when no ancestor declares one. -/
def nearestOr {α : Type} (sel : StyleDecl → Option α) : List StyleDecl → α → α
  | [], d => d
  | a :: rest, d =>
    match sel a with
    | some v => v
    | none => nearestOr sel rest d

mutual

/-- Spec-side definition (from §8 of the spec, for the refinement claim C8):
a text node's effective color/font/size is the nearest ancestor element's
declared override for that field, or the root default if none declares one;
`anc` lists the ancestors' declarations nearest first. -/
def specTextStyles : Node → List StyleDecl → InheritedStyle → List TextCtx
  | .text t, anc, root =>
    [⟨t, nearestOr (fun a => a.color) anc root.color,
      nearestOr (fun a => a.font) anc root.font_name,
      nearestOr (fun a => a.font_size) anc root.font_size⟩]
  | .svg _ _ _ _, _, _ => []
  | .element d children, anc, root =>
    specTextStylesList children
      (⟨d.color.map RgbColor.from_array, d.font, d.font_size⟩ :: anc) root

/-- Spec-side resolution over a child list. -/
def specTextStylesList : NodeList → List StyleDecl → InheritedStyle → List TextCtx
  | .nil, _, _ => []
  | .cons hd tl, anc, root => specTextStyles hd anc root ++ specTextStylesList tl anc root

end

end Juice

/-! ## Hit testing (`dom.rs::Dom::_node_at_point`)

Hit testing runs over the laid-out tree: each node carries the box the
external solver computed (`taffy::Layout`: a location relative to the parent
plus a size) and the optional `NodeContext` stored in the arena.  The same
algorithm appears in `preact-embedded/src/layout.rs::hit_test_node` with
`Container` in place of `Element`/`Svg`. -/

namespace Juice

/-- A computed layout box: position relative to the parent, and size. -/
structure LRect where
  x : ℚ
  y : ℚ
  width : ℚ
  height : ℚ
  deriving DecidableEq

mutual

/-- A laid-out node: its box, its optional context, its children in
declaration order. -/
inductive LTree where
  | mk (layout : LRect) (ctx : Option NodeContext) (children : LTreeList)

/-- Children of a laid-out node. -/
inductive LTreeList where
  | nil : LTreeList
  | cons (hd : LTree) (tl : LTreeList) : LTreeList

end

/-- The box of a laid-out node. -/
def LTree.layout : LTree → LRect
  | .mk l _ _ => l

/-- The context of a laid-out node. -/
def LTree.ctx : LTree → Option NodeContext
  | .mk _ c _ => c

/-- The children of a laid-out node. -/
def LTree.children : LTree → LTreeList
  | .mk _ _ cs => cs

/-- Children as a standard list (for membership statements). -/
def LTreeList.toList : LTreeList → List LTree
  | .nil => []
  | .cons hd tl => hd :: tl.toList

/-- The stable id `_node_at_point` may return for a node's own context: only
`Element` and `Svg` contexts with a present `js_id` qualify; `Text` nodes and
id-less nodes never do. -/
def hittableId : Option NodeContext → Option Nat
  | some (.element _ _ (some js_id)) => some js_id
  | some (.svg _ (some js_id) _) => some js_id
  | _ => none

mutual

/-- Model of `Dom::_node_at_point`: compute the node's absolute box; return
`none` immediately if the query point is outside it; otherwise try the
children in reverse declaration order and fall back to the node's own
hittable id. -/
def node_at_point_from (t : LTree) (x y parent_x parent_y : ℚ) : Option Nat :=
  match t with
  | .mk layout ctx children =>
    let node_x := parent_x + layout.x
    let node_y := parent_y + layout.y
    if x < node_x ∨ x ≥ node_x + layout.width ∨ y < node_y ∨ y ≥ node_y + layout.height then
      none
    else
      match childHit children x y node_x node_y with
      | some id => some id
      | none => hittableId ctx

/-- Try the children from last to first (last drawn is foremost), returning
the first hit. -/
def childHit (cs : LTreeList) (x y parent_x parent_y : ℚ) : Option Nat :=
  match cs with
  | .nil => none
  | .cons hd tl =>
    match childHit tl x y parent_x parent_y with
    | some id => some id
    | none => node_at_point_from hd x y parent_x parent_y

end

/-- Model of `Dom::node_at_point`: hit testing starts at the root with zero
parent offset. -/
def node_at_point (t : LTree) (x y : ℚ) : Option Nat :=
  node_at_point_from t x y 0 0

/-- The point lies inside the box with absolute origin `(nx, ny)`. -/
def InBox (x y nx ny w h : ℚ) : Prop :=
  nx ≤ x ∧ x < nx + w ∧ ny ≤ y ∧ y < ny + h

instance (x y nx ny w h : ℚ) : Decidable (InBox x y nx ny w h) := by
  unfold InBox; infer_instance

/-- Witness chain for a hit: `Hits x y px py t i` says that the point lies
inside `t`'s absolute box (with the parent's absolute origin at `(px, py)`)
and, after descending through children whose boxes all contain the point, a
node carrying hittable id `i` is reached. -/
inductive Hits (x y : ℚ) : ℚ → ℚ → LTree → Nat → Prop where
  | self (px py : ℚ) (layout : LRect) (ctx : Option NodeContext) (children : LTreeList)
      (i : Nat)
      (hin : InBox x y (px + layout.x) (py + layout.y) layout.width layout.height)
      (hid : hittableId ctx = some i) :
      Hits x y px py (.mk layout ctx children) i
  | child (px py : ℚ) (layout : LRect) (ctx : Option NodeContext) (children : LTreeList)
      (c : LTree) (i : Nat)
      (hin : InBox x y (px + layout.x) (py + layout.y) layout.width layout.height)
      (hmem : c ∈ children.toList)
      (hc : Hits x y (px + layout.x) (py + layout.y) c i) :
      Hits x y px py (.mk layout ctx children) i

end Juice

/-! ## `crates/jsui/src/engine.rs` — script-host state machine

The script runtime is modelled by a small action language: a script (a
callback body) is a list of calls to the native bindings the engine
registers (`renderer.setContents`, `setTimeout`, `clearTimeout`,
`document.addEventListener`) plus `queueJob`, which models scheduling a
microtask/promise job in the runtime's job queue (the capability behind
`execute_pending_job`).  `removeEventListener` (removal by function
identity) is not modelled; no binding can *unset* the dirty flag or remove a
pending job, so its absence does not weaken any claim below.  `Instant::now`
is modelled by the `now` field, constant within one host call. -/

namespace Jsui

mutual

/-- One native call a script can make. -/
inductive SAct where
  | setContents (json : String) : SAct
  | setTimeoutA (ms : Nat) (cb : ScriptL) : SAct
  | clearTimeoutA (id : Nat) : SAct
  | addEventListenerA (event : String) (cb : ScriptL) : SAct
  | queueJob (body : ScriptL) : SAct

/-- A script: a list of actions, executed in order. -/
inductive ScriptL where
  | nil : ScriptL
  | cons (hd : SAct) (tl : ScriptL) : ScriptL

end

/-- A registered timer (`engine.rs::Timer`): all timers here are one-shot. -/
structure Timer where
  id : Nat
  callback : ScriptL
  fire_at : Nat

/-- A registered listener (`engine.rs::Listener`). -/
structure Listener where
  event : String
  callback : ScriptL

/-- The observable state of an `Engine`: the published tree JSON, the dirty
flag, the timer and listener tables, the runtime's pending-job queue, and
the current time. -/
structure EngState where
  tree_json : String
  dirty : Bool
  timers : List Timer
  next_timer_id : Nat
  listeners : List Listener
  jobs : List ScriptL
  now : Nat

/-- The state `Engine::new` constructs (time is an ambient parameter). -/
def EngState.init (now : Nat) : EngState :=
  { tree_json := "", dirty := false, timers := [], next_timer_id := 1
    listeners := [], jobs := [], now := now }

/-- Execute one native call against the engine state.  `setContents` stores
the JSON and sets the dirty flag; `setTimeout` appends a one-shot timer with
deadline `now + ms`; `clearTimeout` retains the timers with a different id;
`addEventListener` appends a listener; `queueJob` appends a pending job. -/
def runAct (s : EngState) : SAct → EngState
  | .setContents j => {s with tree_json := j, dirty := true}
  | .setTimeoutA ms cb =>
    { s with timers := s.timers ++ [⟨s.next_timer_id, cb, s.now + ms⟩]
             next_timer_id := s.next_timer_id + 1 }
  | .clearTimeoutA i => {s with timers := s.timers.filter (fun t => t.id ≠ i)}
  | .addEventListenerA e cb => {s with listeners := s.listeners ++ [⟨e, cb⟩]}
  | .queueJob body => {s with jobs := s.jobs ++ [body]}

/-- Execute a whole script (callback body), in order. -/
def runScript (s : EngState) : ScriptL → EngState
  | .nil => s
  | .cons a tl => runScript (runAct s a) tl

/-- Execute a list of callbacks in order. -/
def runScripts (s : EngState) (cbs : List ScriptL) : EngState :=
  cbs.foldl runScript s

mutual

/-- Weight of an action: `1` plus the weight of any job body it can
enqueue (used to bound the microtask drain). -/
def actWeight : SAct → Nat
  | .queueJob body => 1 + scriptWeight body
  | _ => 1

/-- Weight of a script. -/
def scriptWeight : ScriptL → Nat
  | .nil => 1
  | .cons a tl => actWeight a + scriptWeight tl

end

/-- Total weight of the pending-job queue. -/
def jobsWeight (js : List ScriptL) : Nat :=
  js.foldr (fun b acc => scriptWeight b + acc) 0

/-- The job bodies a script enqueues when executed (its top-level
`queueJob` actions, in order). -/
def spawnedJobs : ScriptL → List ScriptL
  | .nil => []
  | .cons (.queueJob body) tl => body :: spawnedJobs tl
  | .cons (.setContents _) tl => spawnedJobs tl
  | .cons (.setTimeoutA _ _) tl => spawnedJobs tl
  | .cons (.clearTimeoutA _) tl => spawnedJobs tl
  | .cons (.addEventListenerA _ _) tl => spawnedJobs tl

/-- One step of `while ctx.execute_pending_job() {}`, bounded by fuel: pop
the first pending job and execute it (which may enqueue more jobs at the
back). -/
def drainFuel : Nat → EngState → EngState
  | 0, s => s
  | fuel + 1, s =>
    match s.jobs with
    | [] => s
    | b :: rest => drainFuel fuel (runScript {s with jobs := rest} b)

/-- `while ctx.execute_pending_job() {}`: run pending jobs until the queue
is empty.  `jobsWeight` fuel always suffices (proved below), so this is the
total drain. -/
def drain (s : EngState) : EngState :=
  drainFuel (jobsWeight s.jobs) s

/-- Model of `Engine::tick`: collect and remove the timers whose deadline
has passed; if at least one fired, run their callbacks and then drain the
job queue.  When no timer fired, neither the callbacks loop nor the job
drain runs. -/
def tick (s : EngState) : EngState :=
  let ready := (s.timers.filter (fun t => t.fire_at ≤ s.now)).map (fun t => t.callback)
  let s1 := {s with timers := s.timers.filter (fun t => ¬ t.fire_at ≤ s.now)}
  if ready.isEmpty then s1
  else drain (runScripts s1 ready)

/-- Model of `Engine::dispatch_event`: snapshot the callbacks registered for
the `"event"` channel; if any exist, run them and drain the job queue; then
run a `tick`. -/
def dispatch_event (s : EngState) (node_id : Nat) (event_type : String) : EngState :=
  let callbacks := (s.listeners.filter (fun l => l.event = "event")).map (fun l => l.callback)
  let s1 := if callbacks.isEmpty then s else drain (runScripts s callbacks)
  tick s1

/-- Model of `Engine::has_update`: report and clear the dirty flag. -/
def has_update (s : EngState) : Bool × EngState :=
  (s.dirty, {s with dirty := false})

/-- The `renderer.setContents` binding as called from a script: store the
string (unparsed) and set the dirty flag.  It accepts any string. -/
def setContentsCall (s : EngState) (json : String) : EngState :=
  {s with tree_json := json, dirty := true}

/-- Model of `engine.rs::read_and_layout` up to the point that decides claim
C1: read the published tree JSON and parse it with
`tree::parse_tree(..).expect("Failed to parse widget tree")`.  A parse
failure makes `expect` panic — the process aborts — modelled as
`Except.error`.  (On success the subsequent layout-tree build is infallible
and the box solver is the external collaborator of spec §4.2, so the parsed
widget tree is returned as the result.) -/
def read_and_layout (tree_json : String) : Except String WidgetNode :=
  match parse_tree tree_json with
  | .ok w => .ok w
  | .error (m, _) => .error ("panicked: Failed to parse widget tree: " ++ m)

end Jsui

/-! ## `crates/juice/src/timers.rs` -/

namespace Juice

/-- `timers.rs::Timer`: `interval` is `none` for a one-shot (`setTimeout`)
and `some n` for a repeating timer (`setInterval`).  The callback is an
opaque handle. -/
structure Timer where
  id : Nat
  callback : Nat
  fire_at : Nat
  interval : Option Nat
  deriving DecidableEq

/-- The timer the `setTimeout` binding registers: deadline `now + ms`,
one-shot. -/
def setTimeoutReg (id cb now ms : Nat) : Timer :=
  ⟨id, cb, now + ms, none⟩

/-- The timer the `setInterval` binding registers: deadline `now + ms`,
repeating with interval `ms`. -/
def setIntervalReg (id cb now ms : Nat) : Timer :=
  ⟨id, cb, now + ms, some ms⟩

/-- The timers due at `now` (in list order). -/
def timersFired (timers : List Timer) (now : Nat) : List Timer :=
  timers.filter (fun t => t.fire_at ≤ now)

/-- Model of `Timers::tick`: collect the callbacks of every timer whose
deadline has passed; reschedule fired repeating timers to `now + interval`;
then retain repeating timers and unexpired one-shots (fired one-shots are
removed).  Returns the retained timer list and the fired callbacks. -/
def timersTick (timers : List Timer) (now : Nat) : List Timer × List Nat :=
  let ready := (timersFired timers now).map (fun t => t.callback)
  let updated := timers.map (fun t =>
    if t.fire_at ≤ now then
      match t.interval with
      | some i => {t with fire_at := now + i}
      | none => t
    else t)
  (updated.filter (fun t => t.interval.isSome ∨ now < t.fire_at), ready)

end Juice

/-! ## `crates/juice/src/renderer.rs` — the tree-publish path -/

namespace Juice

/-- Model of `Dom::new` up to the claims: parse the JSON text
(`serde_json::from_str::<Node>`), then build the context tree with
`build_node`.  The only fallible step is the parse; the error carries the
column used for the diagnostic snippet (syntax errors at their column,
data-layer errors at end of input, where serde's internally-tagged buffering
reports them). -/
def dom_new (content_json : String) (inherited_style : InheritedStyle) :
    Except (String × Nat) CTree :=
  match jsonParse content_json with
  | .error e => .error e
  | .ok j =>
    match nodeFromJson j with
    | .ok n => .ok (build_node n inherited_style)
    | .error m => .error (m, content_json.data.length + 1)

/-- The renderer state the `update` binding mutates: the current DOM, the
`should_update` flag, the stored event callback (an opaque handle). -/
structure RState where
  dom : Option CTree
  should_update : Bool
  event_callback : Option Nat

/-- The diagnostic `renderer.rs` prints on a failed `Dom::new`: the error
message, a snippet of up to 40 characters on each side of the failure
column, and a caret pointer aligned under the column.  (Rust slices bytes;
the model slices characters — identical on the ASCII payloads involved.) -/
structure ErrLog where
  message : String
  snippet : String
  pointer : String
  deriving DecidableEq

/-- Build the diagnostic for error `msg` at column `col` of `content`:
`start = col.saturating_sub(40)`, `end = min (col + 40) content.len()`. -/
def mkErrLog (content msg : String) (col : Nat) : ErrLog :=
  let start := col - 40
  let stop := min (col + 40) content.data.length
  { message := msg
    snippet := String.mk ((content.data.drop start).take (stop - start))
    pointer := String.mk (List.replicate (col - start) ' ') ++ "^" }

/-- Model of the `renderer.update` binding registered by
`Renderer::register`: on a successful `Dom::new` the new DOM replaces the
old, `should_update` is set and the event callback stored; on a parse error
the state is returned unchanged and a diagnostic with the snippet window is
emitted instead. -/
def renderer_update (base_style : InheritedStyle) (st : RState)
    (content : String) (event_callback : Nat) : RState × Option ErrLog :=
  match dom_new content base_style with
  | .ok d => ({dom := some d, should_update := true, event_callback := some event_callback}, none)
  | .error (msg, col) => (st, some (mkErrLog content msg col))

end Juice

/-! ## `crates/juice/src/canvas.rs` — software framebuffer

`jsui/src/render.rs::Framebuffer` contains byte-for-byte the same
`blend_pixel`, `draw_iter`, `fill_solid` and `clear` code (with `pack_xrgb`
in place of `to_xrgb`); the definitions below embed both.  Pixel bytes are
`Nat` with an explicit `% 256` wherever Rust casts with `as u8`; the pixel
buffer is a `List Nat` and a write uses `List.set` on the raw index
`y * width + x`, so the bounds theorems for claim C10 are statements about
those indices.  Source-image bytes are supplied as a total function
`Nat → Nat` (the claim is about the destination buffer; the callers pass
buffers of matching size). -/

namespace Juice

/-- `canvas.rs::to_xrgb`: pack r, g, b into one XRGB8888 word. -/
def to_xrgb (r g b : Nat) : Nat :=
  0xFF000000 ||| ((r % 256) <<< 16) ||| ((g % 256) <<< 8) ||| (b % 256)

/-- The software framebuffer: fixed dimensions and a row-major pixel list. -/
structure Canvas where
  width : Nat
  height : Nat
  pixels : List Nat

/-- `Canvas::new`: a `width*height` buffer of opaque black. -/
def Canvas.new (width height : Nat) : Canvas :=
  ⟨width, height, List.replicate (width * height) 0xFF000000⟩

/-- The buffer has exactly `width * height` pixels (holds for `Canvas::new`
and is preserved by every operation below). -/
def Canvas.Wf (c : Canvas) : Prop :=
  c.pixels.length = c.width * c.height

/-- `Canvas::blend_pixel`: bounds-check the signed coordinates, then blend
`color` over the stored pixel with `dst = (src*alpha + dst*(255-alpha))/255`
per channel.  (`alpha` is a byte; `255 - alpha` mirrors the `u16`
subtraction, which cannot underflow for byte inputs.) -/
def blend_pixel (c : Canvas) (x y : Int) (color : RgbColor) (alpha : Nat) : Canvas :=
  if x < 0 ∨ y < 0 ∨ x ≥ (c.width : Int) ∨ y ≥ (c.height : Int) then c
  else
    let idx := y.toNat * c.width + x.toNat
    let bg := c.pixels.getD idx 0
    let bg_r := (bg >>> 16) &&& 255
    let bg_g := (bg >>> 8) &&& 255
    let bg_b := bg &&& 255
    let a := alpha
    let inv_a := 255 - a
    let r := (color.r * a + bg_r * inv_a) / 255 % 256
    let g := (color.g * a + bg_g * inv_a) / 255 % 256
    let b := (color.b * a + bg_b * inv_a) / 255 % 256
    {c with pixels := c.pixels.set idx (to_xrgb r g b)}

/-- Inner-loop body shared by both blits: the per-(row, col) destination
update of `blit_rgba`.  The row guard (`continue` on an out-of-range `cy`)
does not depend on `col` and the canvas height never changes, so checking it
per pixel is equivalent to the source's per-row `continue`. -/
def blit_rgba_step (data : Nat → Nat) (src_w : Nat) (dst_x dst_y : Int)
    (row col : Nat) (c : Canvas) : Canvas :=
  let cy := dst_y + (row : Int)
  if cy < 0 ∨ cy ≥ (c.height : Int) then c
  else
    let cx := dst_x + (col : Int)
    if cx < 0 ∨ cx ≥ (c.width : Int) then c
    else
      let si := (row * src_w + col) * 4
      let a := data (si + 3) % 256
      if a = 0 then c
      else
        let di := cy.toNat * c.width + cx.toNat
        if a = 255 then
          {c with pixels := c.pixels.set di (to_xrgb (data si) (data (si + 1)) (data (si + 2)))}
        else
          let bg := c.pixels.getD di 0
          let inv_a := 255 - a
          let nr := ((data si % 256) * a + ((bg >>> 16) &&& 255) * inv_a) / 255 % 256
          let ng := ((data (si + 1) % 256) * a + ((bg >>> 8) &&& 255) * inv_a) / 255 % 256
          let nb := ((data (si + 2) % 256) * a + (bg &&& 255) * inv_a) / 255 % 256
          {c with pixels := c.pixels.set di (to_xrgb nr ng nb)}

/-- Per-(row, col) destination update of `blit_premultiplied_rgba`:
`out = src + dst*(255-a)/255` with `+127` rounding, truncated to a byte as
the `as u8` cast does. -/
def blit_premultiplied_step (data : Nat → Nat) (src_w : Nat) (dst_x dst_y : Int)
    (row col : Nat) (c : Canvas) : Canvas :=
  let cy := dst_y + (row : Int)
  if cy < 0 ∨ cy ≥ (c.height : Int) then c
  else
    let cx := dst_x + (col : Int)
    if cx < 0 ∨ cx ≥ (c.width : Int) then c
    else
      let si := (row * src_w + col) * 4
      let a := data (si + 3) % 256
      if a = 0 then c
      else
        let di := cy.toNat * c.width + cx.toNat
        if a = 255 then
          {c with pixels := c.pixels.set di (to_xrgb (data si) (data (si + 1)) (data (si + 2)))}
        else
          let bg := c.pixels.getD di 0
          let inv_a := 255 - a
          let nr := ((data si % 256) + (((bg >>> 16) &&& 255) * inv_a + 127) / 255) % 256
          let ng := ((data (si + 1) % 256) + (((bg >>> 8) &&& 255) * inv_a + 127) / 255) % 256
          let nb := ((data (si + 2) % 256) + ((bg &&& 255) * inv_a + 127) / 255) % 256
          {c with pixels := c.pixels.set di (to_xrgb nr ng nb)}

/-- Run a loop body for indices `0, 1, …, n-1` in increasing order. -/
def loopN (f : Nat → Canvas → Canvas) (c : Canvas) : Nat → Canvas
  | 0 => c
  | n + 1 => f n (loopN f c n)

/-- `Canvas::blit_rgba`: the nested `for row in 0..src_h { for col in
0..src_w { … } }` loops over `blit_rgba_step`. -/
def blit_rgba (c : Canvas) (data : Nat → Nat) (src_w src_h : Nat)
    (dst_x dst_y : Int) : Canvas :=
  loopN (fun row c1 => loopN (fun col c2 => blit_rgba_step data src_w dst_x dst_y row col c2) c1 src_w) c src_h

/-- `Canvas::blit_premultiplied_rgba`: the same loops over
`blit_premultiplied_step`. -/
def blit_premultiplied_rgba (c : Canvas) (data : Nat → Nat) (src_w src_h : Nat)
    (dst_x dst_y : Int) : Canvas :=
  loopN (fun row c1 => loopN (fun col c2 => blit_premultiplied_step data src_w dst_x dst_y row col c2) c1 src_w) c src_h

/-- The loop body of `draw_iter`: write one pixel if its coordinates pass
the bounds check, else skip it. -/
def draw_pixel_step (c1 : Canvas) (p : Int × Int × RgbColor) : Canvas :=
  if p.1 ≥ 0 ∧ p.1 < (c1.width : Int) ∧ p.2.1 ≥ 0 ∧ p.2.1 < (c1.height : Int) then
    {c1 with pixels := c1.pixels.set (p.2.1.toNat * c1.width + p.1.toNat) (to_xrgb p.2.2.r p.2.2.g p.2.2.b)}
  else c1

/-- `DrawTarget::draw_iter` for `Canvas`/`Framebuffer`: write each pixel
whose coordinates pass the bounds check, skip the rest. -/
def draw_iter (c : Canvas) (pxs : List (Int × Int × RgbColor)) : Canvas :=
  pxs.foldl draw_pixel_step c

/-- `embedded_graphics::primitives::Rectangle`: signed top-left corner and
unsigned size. -/
structure EGRect where
  x : Int
  y : Int
  w : Nat
  h : Nat
  deriving DecidableEq

/-- `Rectangle::bottom_right()`: `None` for a zero-sized rectangle. -/
def EGRect.bottomRight? (r : EGRect) : Option (Int × Int) :=
  if r.w = 0 ∨ r.h = 0 then none
  else some (r.x + (r.w : Int) - 1, r.y + (r.h : Int) - 1)

/-- Model of `Rectangle::intersection` (external `embedded-graphics` crate):
the overlap of the two rectangles, or the zero rectangle when they are
disjoint or either is empty. -/
def EGRect.intersection (a b : EGRect) : EGRect :=
  match a.bottomRight?, b.bottomRight? with
  | some (ax2, ay2), some (bx2, by2) =>
    let x := max a.x b.x
    let y := max a.y b.y
    let x2 := min ax2 bx2
    let y2 := min ay2 by2
    if x ≤ x2 ∧ y ≤ y2 then ⟨x, y, (x2 - x + 1).toNat, (y2 - y + 1).toNat⟩
    else ⟨0, 0, 0, 0⟩
  | _, _ => ⟨0, 0, 0, 0⟩

/-- Rust `as u32` on an `i32`. -/
def u32ofInt (i : Int) : Nat :=
  (i % 4294967296).toNat

/-- Overwrite the pixels at indices `start ≤ i < stop`
(`self.pixels[row_start..row_end].fill(px)`).  Rust's slice indexing panics
when `row_end > len`; the bounds conjunct of claim C10 proves
`row_end ≤ len`, on which domain this total model coincides with the
source. -/
def fillRange (l : List Nat) (start stop px : Nat) : List Nat :=
  l.mapIdx (fun i v => if start ≤ i ∧ i < stop then px else v)

/-- Fill rows `y0, y0+1, …, y0+n-1` of the buffer. -/
def loopRowsFill (l : List Nat) (width x0 x1 y0 : Nat) : Nat → Nat → List Nat
  | 0, _ => l
  | n + 1, px =>
    fillRange (loopRowsFill l width x0 x1 y0 n px) (width * (y0 + n) + x0) (width * (y0 + n) + x1) px

/-- `DrawTarget::fill_solid` for `Canvas`/`Framebuffer`: clip the area
against the canvas rectangle, then fill each clipped row of the buffer. -/
def fill_solid (c : Canvas) (area : EGRect) (color : RgbColor) : Canvas :=
  let px := to_xrgb color.r color.g color.b
  let clipped := area.intersection ⟨0, 0, c.width, c.height⟩
  match clipped.bottomRight? with
  | none => c
  | some (brx, bry) =>
    let x0 := u32ofInt clipped.x
    let y0 := u32ofInt clipped.y
    let x1 := u32ofInt brx + 1
    let y1 := u32ofInt bry + 1
    { c with pixels :=
        loopRowsFill c.pixels c.width x0 x1 y0 (y1 - y0) px }

end Juice

/-! # Claim-specific definitions -/

/-- The shapes the claim C2 says are the only accepted dimension values: a
bare JSON number, a numeric string with a `px` suffix, or a numeric string
with a `%` suffix. -/
def ClaimedDimShape (j : Json) : Prop :=
  (∃ q, j = Json.num q)
  ∨ (∃ s p, j = Json.str s ∧ stripSuffix? s.data "px".data = some p ∧ (parseF32? p).isSome)
  ∨ (∃ s p, j = Json.str s ∧ stripSuffix? s.data "%".data = some p ∧ (parseF32? p).isSome)

/-- An engine state with one pending job, no timers and an old published
tree (the scenario refuting claim C3). -/
def c3PendingState : Jsui.EngState :=
  { tree_json := "old", dirty := false, timers := [], next_timer_id := 1
    listeners := [], jobs := [Jsui.ScriptL.cons (.setContents "new") .nil], now := 7 }

/-- A state like `c3PendingState` but with one due timer (deadline 0, time
7) whose callback does nothing. -/
def c3DueState : Jsui.EngState :=
  { tree_json := "old", dirty := false, timers := [⟨1, Jsui.ScriptL.nil, 0⟩], next_timer_id := 2
    listeners := [], jobs := [Jsui.ScriptL.cons (.setContents "new") .nil], now := 7 }

/-- Whether an action is a call to the tree-publish binding. -/
def Jsui.SAct.isPublish : Jsui.SAct → Prop
  | .setContents _ => True
  | _ => False

/-- Whether a script contains a (top-level, hence always executed) call to
the tree-publish binding. -/
def hasPublish : Jsui.ScriptL → Prop
  | .nil => False
  | .cons a tl => a.isPublish ∨ hasPublish tl

/-- A handler that synchronously publishes `j` and schedules a microtask
that republishes `j2`. -/
def publishScript (j j2 : String) : Jsui.ScriptL :=
  .cons (.setContents j) (.cons (.queueJob (.cons (.setContents j2) .nil)) .nil)

/-- Fold ancestor declarations (nearest first) over a root style via
`clone_and_override`, outermost ancestor applied first — exactly the style
context `build_node` passes down a path. -/
def applyDecls (is : Juice.InheritedStyle) : List Juice.StyleDecl → Juice.InheritedStyle
  | [] => is
  | a :: rest => (applyDecls is rest).clone_and_override a.color a.font a.font_size

/-- Two overlapping siblings with ids 1 and 2 hanging out of a small root
box: the query point (15, 15) is inside both siblings' absolute boxes but
outside the root's box. -/
def c6OverhangTree : Juice.LTree :=
  .mk ⟨0, 0, 10, 10⟩ none
    (.cons (.mk ⟨5, 5, 20, 20⟩ (some (.element none 0 (some 1))) .nil)
      (.cons (.mk ⟨5, 5, 20, 20⟩ (some (.element none 0 (some 2))) .nil) .nil))

/-! # Claims -/

/-! ## C2 — dimension-field parsing -/

/-- Claim C2 counterexample: (1) the jsui `DimensionValue` deserializer
accepts the bare numeric *string* `"42"`, which is none of the three
claimed shapes, instead of returning a `ParseError`; (2) juice's
`parse_dimension` silently substitutes `auto` for the unparsable string
`"hello"` instead of erroring; (3) the juice `Node` parse *rejects* a bare
JSON number in a `width` field (the field is a plain `String`), though the
claim says bare numbers are accepted. -/
theorem claim_C2_counterexample :
    Jsui.dimensionValueFromJson (Json.str "42") = .ok (.length 42)
    ∧ Juice.parse_dimension "hello" = .auto
    ∧ (Juice.nodeFromJson (Json.obj (.cons "type" (Json.str "element")
        (.cons "width" (Json.num 5) .nil)))).isOk = false :=
  ⟨by decide, by decide, by decide⟩

/-- `isOk` on a success. -/
@[simp] theorem isOk_ok {ε α : Type} (a : α) : (Except.ok a : Except ε α).isOk = true := rfl

/-- `isOk` on an error. -/
@[simp] theorem isOk_error {ε α : Type} (e : ε) : (Except.error e : Except ε α).isOk = false := rfl

/-- Unfold a successful `stripSuffix?`. -/
theorem stripSuffix?_eq_some {s suf r : List Char} (h : stripSuffix? s suf = some r) :
    suf.length ≤ s.length ∧ s.drop (s.length - suf.length) = suf := by
  unfold stripSuffix? at h
  split at h
  · assumption
  · exact absurd h (by simp)

/-- A successful `stripSuffix?` pins down the last character. -/
theorem stripSuffix?_getLast {s suf r : List Char} (h : stripSuffix? s suf = some r)
    (hne : suf ≠ []) : s.getLast? = suf.getLast? := by
  obtain ⟨hlen, hdrop⟩ := stripSuffix?_eq_some h
  calc s.getLast?
      = (s.take (s.length - suf.length) ++ s.drop (s.length - suf.length)).getLast? := by
        rw [List.take_append_drop]
    _ = (s.drop (s.length - suf.length)).getLast? :=
        List.getLast?_append_of_ne_nil _ (by rw [hdrop]; exact hne)
    _ = suf.getLast? := by rw [hdrop]

/-- A string cannot strip both a `"%"` suffix and a `"px"` suffix. -/
theorem pct_px_conflict {s p q : List Char}
    (h1 : stripSuffix? s "%".data = some p)
    (h2 : stripSuffix? s "px".data = some q) : False := by
  have g1 := stripSuffix?_getLast h1 (by decide)
  have g2 := stripSuffix?_getLast h2 (by decide)
  rw [g1] at g2
  exact absurd g2 (by decide)

/-- Claim C2 amended: (1) the jsui `DimensionValue` deserializer accepts
exactly the claimed shapes *plus* bare numeric strings — a number, an
`"N%"` string, an `"Npx"` string, or a bare numeric string; every other
JSON value is a parse error.  (2) juice's `parse_dimension` never errors:
a string that is neither `"Npx"` nor `"N%"` — including bare numeric
strings — silently becomes `auto`, as does a `px`/`%` string whose numeric
part does not parse.  (3) In juice's `Node`, the `width` field is a plain
JSON string: a bare number is a type error and any string is accepted
as-is. -/
theorem claim_C2_amended :
    (∀ j : Json, (Jsui.dimensionValueFromJson j).isOk = true ↔
      (ClaimedDimShape j
        ∨ (∃ s, j = Json.str s ∧ stripSuffix? s.data "px".data = none
            ∧ stripSuffix? s.data "%".data = none ∧ (parseF32? s.data).isSome)))
    ∧ (∀ s : String, stripSuffix? s.data "px".data = none →
        stripSuffix? s.data "%".data = none → Juice.parse_dimension s = .auto)
    ∧ (∀ (s : String) (p : List Char), stripSuffix? s.data "px".data = some p →
        parseF32? p = none → Juice.parse_dimension s = .auto)
    ∧ (∀ (q : ℚ) (d : Juice.ElementData),
        (Juice.elementField "width" (Json.num q) d).isOk = false)
    ∧ (∀ (s : String) (d : Juice.ElementData),
        Juice.elementField "width" (Json.str s) d = .ok {d with width := s}) := by
  refine ⟨?_, ?_, ?_, ?_, ?_⟩
  · intro j
    cases j with
    | num q =>
      simp only [Jsui.dimensionValueFromJson, isOk_ok, ClaimedDimShape]
      exact iff_of_true trivial (Or.inl (Or.inl ⟨q, rfl⟩))
    | str s =>
      rcases h1 : stripSuffix? s.data "%".data with _ | p
      · rcases h2 : stripSuffix? s.data "px".data with _ | p
        · rcases h3 : parseF32? s.data with _ | v
          · simp only [Jsui.dimensionValueFromJson, h1, h2, h3, isOk_error, ClaimedDimShape]
            constructor
            · intro h
              cases h
            · rintro ((⟨q, hq⟩ | ⟨s', p', hs, hpx, hsome⟩ | ⟨s', p', hs, hpct, hsome⟩) |
                ⟨s', hs, hpx, hpct, hsome⟩)
              · cases hq
              · cases Json.str.inj hs
                rw [h2] at hpx
                cases hpx
              · cases Json.str.inj hs
                rw [h1] at hpct
                cases hpct
              · cases Json.str.inj hs
                rw [h3] at hsome
                cases hsome
          · simp only [Jsui.dimensionValueFromJson, h1, h2, h3, isOk_ok, ClaimedDimShape]
            exact iff_of_true trivial (Or.inr ⟨s, rfl, h2, h1, by rw [h3]; rfl⟩)
        · rcases h3 : parseF32? p with _ | v
          · simp only [Jsui.dimensionValueFromJson, h1, h2, h3, isOk_error, ClaimedDimShape]
            constructor
            · intro h
              cases h
            · rintro ((⟨q, hq⟩ | ⟨s', p', hs, hpx, hsome⟩ | ⟨s', p', hs, hpct, hsome⟩) |
                ⟨s', hs, hpx, hpct, hsome⟩)
              · cases hq
              · cases Json.str.inj hs
                rw [h2] at hpx
                cases hpx
                rw [h3] at hsome
                cases hsome
              · cases Json.str.inj hs
                rw [h1] at hpct
                cases hpct
              · cases Json.str.inj hs
                rw [h2] at hpx
                cases hpx
          · simp only [Jsui.dimensionValueFromJson, h1, h2, h3, isOk_ok, ClaimedDimShape]
            exact iff_of_true trivial
              (Or.inl (Or.inr (Or.inl ⟨s, p, rfl, h2, by rw [h3]; rfl⟩)))
      · rcases h3 : parseF32? p with _ | v
        · simp only [Jsui.dimensionValueFromJson, h1, h3, isOk_error, ClaimedDimShape]
          constructor
          · intro h
            cases h
          · rintro ((⟨q, hq⟩ | ⟨s', p', hs, hpx, hsome⟩ | ⟨s', p', hs, hpct, hsome⟩) |
              ⟨s', hs, hpx, hpct, hsome⟩)
            · cases hq
            · cases Json.str.inj hs
              exact (pct_px_conflict h1 hpx).elim
            · cases Json.str.inj hs
              rw [h1] at hpct
              cases hpct
              rw [h3] at hsome
              cases hsome
            · cases Json.str.inj hs
              rw [h1] at hpct
              cases hpct
        · simp only [Jsui.dimensionValueFromJson, h1, h3, isOk_ok, ClaimedDimShape]
          exact iff_of_true trivial
            (Or.inl (Or.inr (Or.inr ⟨s, p, rfl, h1, by rw [h3]; rfl⟩)))
    | null =>
      simp only [Jsui.dimensionValueFromJson, isOk_error, ClaimedDimShape]
      constructor
      · intro h
        cases h
      · rintro ((⟨q, hq⟩ | ⟨s', p', hs, _, _⟩ | ⟨s', p', hs, _, _⟩) | ⟨s', hs, _, _, _⟩) <;> first
        | cases hq
        | cases hs
    | bool b =>
      simp only [Jsui.dimensionValueFromJson, isOk_error, ClaimedDimShape]
      constructor
      · intro h
        cases h
      · rintro ((⟨q, hq⟩ | ⟨s', p', hs, _, _⟩ | ⟨s', p', hs, _, _⟩) | ⟨s', hs, _, _, _⟩) <;> first
        | cases hq
        | cases hs
    | arr items =>
      simp only [Jsui.dimensionValueFromJson, isOk_error, ClaimedDimShape]
      constructor
      · intro h
        cases h
      · rintro ((⟨q, hq⟩ | ⟨s', p', hs, _, _⟩ | ⟨s', p', hs, _, _⟩) | ⟨s', hs, _, _, _⟩) <;> first
        | cases hq
        | cases hs
    | obj fields =>
      simp only [Jsui.dimensionValueFromJson, isOk_error, ClaimedDimShape]
      constructor
      · intro h
        cases h
      · rintro ((⟨q, hq⟩ | ⟨s', p', hs, _, _⟩ | ⟨s', p', hs, _, _⟩) | ⟨s', hs, _, _, _⟩) <;> first
        | cases hq
        | cases hs
  · intro s h2 h1
    unfold Juice.parse_dimension
    simp [h2, h1]
  · intro s p h2 h3
    unfold Juice.parse_dimension
    simp [h2, h3]
  · intro q d
    simp [Juice.elementField, Juice.strictStringFromJson, Except.map]
  · intro s d
    simp [Juice.elementField, Juice.strictStringFromJson, Except.map]

/-! ## C4 — unknown node-type tags -/

/-- Claim C4 counterexample: the jsui `WidgetNode` deserializer parses an
object with the unknown tag `"bogus"` as an ordinary element carrying that
tag (default props, no children) instead of returning a `ParseError`. -/
theorem claim_C4_counterexample :
    Jsui.widgetNodeFromJson (Json.obj (.cons "type" (Json.str "bogus") .nil))
      = .ok (.element "bogus" {} []) := by
  decide

/-- Claim C4 amended: in the juice `Node` parse (whose closed variant set is
`element`/`text`/`svg` — there is no `image` variant in `dom.rs`), any other
string tag is an unknown-variant `ParseError`, and a missing tag is an
error.  In the jsui `WidgetNode` parse, only `"#text"` is distinguished:
every other tag — unknown ones included — parses as an ordinary element
carrying that tag, and only a missing or non-string tag is an error. -/
theorem claim_C4_amended :
    (∀ (fields : JsonFields) (t : String),
      lookupField fields "type" = some (Json.str t) →
      t ≠ "element" → t ≠ "text" → t ≠ "svg" →
      Juice.nodeFromJson (Json.obj fields) = .error ("unknown variant " ++ t))
    ∧ (∀ fields : JsonFields, lookupField fields "type" = none →
        Juice.nodeFromJson (Json.obj fields) = .error "missing field type")
    ∧ (∀ (fields : JsonFields) (t : String),
        lookupField fields "type" = some (Json.str t) → t ≠ "#text" →
        Jsui.widgetNodeFromJson (Json.obj fields) =
          .ok (.element t (Jsui.propsFieldOf fields) (Jsui.childrenFieldOf fields)))
    ∧ (∀ fields : JsonFields, lookupField fields "type" = none →
        Jsui.widgetNodeFromJson (Json.obj fields) = .error "missing type") := by
  refine ⟨?_, ?_, ?_, ?_⟩
  · intro fields t h h1 h2 h3
    unfold Juice.nodeFromJson
    rw [h]
    simp [h1, h2, h3]
  · intro fields h
    unfold Juice.nodeFromJson
    rw [h]
  · intro fields t h h1
    unfold Jsui.widgetNodeFromJson
    rw [h]
    simp [h1]
  · intro fields h
    unfold Jsui.widgetNodeFromJson
    rw [h]

/-- Witness for C4's amended theorem: the tag `"image"` (which the spec
lists as known) is rejected by the juice parse, and the unknown tag
`"view"` parses as an ordinary element in jsui. -/
theorem claim_C4_witness :
    Juice.nodeFromJson (Json.obj (.cons "type" (Json.str "image") .nil))
      = .error ("unknown variant " ++ "image")
    ∧ Jsui.widgetNodeFromJson (Json.obj (.cons "type" (Json.str "view") .nil))
      = .ok (.element "view"
          (Jsui.propsFieldOf (.cons "type" (Json.str "view") .nil))
          (Jsui.childrenFieldOf (.cons "type" (Json.str "view") .nil))) :=
  ⟨claim_C4_amended.1 _ "image" rfl (by decide) (by decide) (by decide),
   claim_C4_amended.2.2.1 _ "view" rfl (by decide)⟩

/-! ## C7 — timer semantics (`timers.rs::Timers::tick`) -/

/-- Membership in `timersFired` unfolded. -/
theorem mem_timersFired {timers : List Juice.Timer} {now : Nat} {t : Juice.Timer} :
    t ∈ Juice.timersFired timers now ↔ t ∈ timers ∧ t.fire_at ≤ now := by
  simp [Juice.timersFired]

/-- Claim C7: (a) `setTimeout` with delay 0 registers a one-shot timer due
immediately, so it fires on any tick at or after registration time; (b) a
due one-shot timer's callback is in the fired batch; (c) with distinct timer
ids it is collected exactly once and no timer with its id survives the tick
— it cannot fire again; (d) a due repeating timer with interval `n` firing
at tick time `now` is retained with deadline exactly `now + n` (rescheduled
from the firing tick's `now`, not its original deadline); (e) a callback is
fired only for a stored timer whose deadline has passed, so the rescheduled
timer cannot fire before `now + n`. -/
theorem claim_C7 :
    (∀ id cb now now' : Nat, (Juice.setTimeoutReg id cb now 0).interval = none
      ∧ (Juice.setTimeoutReg id cb now 0).fire_at = now
      ∧ (now ≤ now' → (Juice.setTimeoutReg id cb now 0).fire_at ≤ now'))
    ∧ (∀ (timers : List Juice.Timer) (now : Nat) (t : Juice.Timer),
        t ∈ timers → t.fire_at ≤ now →
        t.callback ∈ (Juice.timersTick timers now).2)
    ∧ (∀ (timers : List Juice.Timer) (now : Nat) (t : Juice.Timer),
        (timers.map (fun x => x.id)).Nodup →
        t ∈ timers → t.interval = none → t.fire_at ≤ now →
        ((Juice.timersFired timers now).map (fun x => x.id)).count t.id = 1
        ∧ ∀ t' ∈ (Juice.timersTick timers now).1, t'.id ≠ t.id)
    ∧ (∀ (timers : List Juice.Timer) (now : Nat) (t : Juice.Timer) (n : Nat),
        t ∈ timers → t.interval = some n → t.fire_at ≤ now →
        ∃ t' ∈ (Juice.timersTick timers now).1,
          t'.id = t.id ∧ t'.interval = some n ∧ t'.fire_at = now + n)
    ∧ (∀ (timers : List Juice.Timer) (now : Nat) (cb : Nat),
        cb ∈ (Juice.timersTick timers now).2 →
        ∃ t ∈ timers, t.callback = cb ∧ t.fire_at ≤ now) := by
  refine ⟨?_, ?_, ?_, ?_, ?_⟩
  · intro id cb now now'
    refine ⟨rfl, rfl, ?_⟩
    intro h
    simpa [Juice.setTimeoutReg] using h
  · intro timers now t ht hdue
    simp only [Juice.timersTick, List.mem_map]
    exact ⟨t, mem_timersFired.mpr ⟨ht, hdue⟩, rfl⟩
  · intro timers now t hnodup ht hone hdue
    constructor
    · have hsub : ((Juice.timersFired timers now).map (fun x => x.id)).Sublist
          (timers.map (fun x => x.id)) :=
        (List.filter_sublist _).map _
      have hnd : ((Juice.timersFired timers now).map (fun x => x.id)).Nodup :=
        hsub.nodup hnodup
      have hmem : t.id ∈ (Juice.timersFired timers now).map (fun x => x.id) :=
        List.mem_map.mpr ⟨t, mem_timersFired.mpr ⟨ht, hdue⟩, rfl⟩
      exact List.count_eq_one_of_mem hnd hmem
    · intro t' ht' heq
      simp only [Juice.timersTick, List.mem_filter, List.mem_map] at ht'
      obtain ⟨⟨t'', ht'', hupd⟩, hkeep⟩ := ht'
      have hid : t''.id = t.id := by
        rw [← heq, ← hupd]
        split
        · split
          · rfl
          · rfl
        · rfl
      have heqt : t'' = t := List.inj_on_of_nodup_map hnodup ht'' ht hid
      subst heqt
      rw [← hupd] at hkeep
      simp only [hone, hdue, if_true, decide_eq_true_eq, Option.isSome_none,
        Bool.false_eq_true, false_or] at hkeep
      omega
  · intro timers now t n ht hint hdue
    refine ⟨{t with fire_at := now + n}, ?_, rfl, by simpa using hint, rfl⟩
    simp only [Juice.timersTick, List.mem_filter, List.mem_map]
    constructor
    · exact ⟨t, ht, by rw [if_pos hdue, hint]⟩
    · simp [hint]
  · intro timers now cb hcb
    simp only [Juice.timersTick, List.mem_map] at hcb
    obtain ⟨t, hmem, hcbeq⟩ := hcb
    rw [mem_timersFired] at hmem
    exact ⟨t, hmem.1, hcbeq, hmem.2⟩

/-- Witness for C7 at concrete timers: a one-shot timer registered at time 5
with delay 0 fires at the tick at time 5 exactly once and is removed; a
repeating timer with interval 3 due at time 5 is rescheduled to 8. -/
theorem claim_C7_witness :
    ((Juice.setTimeoutReg 1 7 5 0).fire_at = 5)
    ∧ 7 ∈ (Juice.timersTick [Juice.setTimeoutReg 1 7 5 0] 5).2
    ∧ ((Juice.timersFired [Juice.setTimeoutReg 1 7 5 0] 5).map (fun x => x.id)).count 1 = 1
    ∧ (∀ t' ∈ (Juice.timersTick [Juice.setTimeoutReg 1 7 5 0] 5).1, t'.id ≠ 1)
    ∧ (∃ t' ∈ (Juice.timersTick [Juice.setIntervalReg 2 9 2 3] 5).1,
        t'.id = 2 ∧ t'.interval = some 3 ∧ t'.fire_at = 5 + 3) :=
  ⟨(claim_C7.1 1 7 5 5).2.1,
   claim_C7.2.1 _ 5 (Juice.setTimeoutReg 1 7 5 0) (by simp) (by decide),
   (claim_C7.2.2.1 _ 5 (Juice.setTimeoutReg 1 7 5 0) (by decide) (by simp) rfl (by decide)).1,
   (claim_C7.2.2.1 _ 5 (Juice.setTimeoutReg 1 7 5 0) (by decide) (by simp) rfl (by decide)).2,
   claim_C7.2.2.2.1 _ 5 (Juice.setIntervalReg 2 9 2 3) 3 (by simp) rfl (by decide)⟩

/-! ## C3 — tick and the microtask drain (`engine.rs::Engine::tick`) -/

/-- Executing a script appends exactly its `queueJob` bodies to the job
queue. -/
theorem runScript_jobs : ∀ (acts : Jsui.ScriptL) (s : Jsui.EngState),
    (Jsui.runScript s acts).jobs = s.jobs ++ Jsui.spawnedJobs acts
  | .nil, s => by simp [Jsui.runScript, Jsui.spawnedJobs]
  | .cons a tl, s => by
    cases a <;>
      simp [Jsui.runScript, Jsui.runAct, Jsui.spawnedJobs, runScript_jobs tl, List.append_assoc]

/-- Scripts have positive weight. -/
theorem scriptWeight_pos (acts : Jsui.ScriptL) : 1 ≤ Jsui.scriptWeight acts := by
  cases acts with
  | nil => simp [Jsui.scriptWeight]
  | cons a tl =>
    have : 1 ≤ Jsui.actWeight a := by cases a <;> simp [Jsui.actWeight]
    simp [Jsui.scriptWeight]
    omega

/-- `jobsWeight` distributes over append. -/
theorem jobsWeight_append (a b : List Jsui.ScriptL) :
    Jsui.jobsWeight (a ++ b) = Jsui.jobsWeight a + Jsui.jobsWeight b := by
  induction a with
  | nil => simp [Jsui.jobsWeight]
  | cons x xs ih => simp [Jsui.jobsWeight] at ih ⊢; omega

/-- `jobsWeight` of a cons. -/
theorem jobsWeight_cons (b : Jsui.ScriptL) (rest : List Jsui.ScriptL) :
    Jsui.jobsWeight (b :: rest) = Jsui.scriptWeight b + Jsui.jobsWeight rest := rfl

/-- The jobs a script spawns weigh strictly less than the script itself. -/
theorem spawnedJobs_weight : ∀ acts : Jsui.ScriptL,
    Jsui.jobsWeight (Jsui.spawnedJobs acts) < Jsui.scriptWeight acts
  | .nil => by simp [Jsui.spawnedJobs, Jsui.jobsWeight, Jsui.scriptWeight]
  | .cons a tl => by
    have ih := spawnedJobs_weight tl
    cases a with
    | queueJob body =>
      simp only [Jsui.spawnedJobs, jobsWeight_cons, Jsui.scriptWeight, Jsui.actWeight]
      omega
    | setContents j =>
      simp only [Jsui.spawnedJobs, Jsui.scriptWeight, Jsui.actWeight]
      omega
    | setTimeoutA ms cb =>
      simp only [Jsui.spawnedJobs, Jsui.scriptWeight, Jsui.actWeight]
      omega
    | clearTimeoutA i =>
      simp only [Jsui.spawnedJobs, Jsui.scriptWeight, Jsui.actWeight]
      omega
    | addEventListenerA e cb =>
      simp only [Jsui.spawnedJobs, Jsui.scriptWeight, Jsui.actWeight]
      omega

/-- With fuel at least the queue's weight, the drain empties the queue. -/
theorem drainFuel_jobs_nil : ∀ (fuel : Nat) (s : Jsui.EngState),
    Jsui.jobsWeight s.jobs ≤ fuel → (Jsui.drainFuel fuel s).jobs = [] := by
  intro fuel
  induction fuel with
  | zero =>
    intro s h
    rcases hj : s.jobs with _ | ⟨b, rest⟩
    · simp [Jsui.drainFuel, hj]
    · rw [hj] at h
      have hb := scriptWeight_pos b
      simp [Jsui.jobsWeight] at h
      omega
  | succ n ih =>
    intro s h
    rcases hj : s.jobs with _ | ⟨b, rest⟩
    · simp [Jsui.drainFuel, hj]
    · simp only [Jsui.drainFuel, hj]
      apply ih
      rw [runScript_jobs]
      show Jsui.jobsWeight (rest ++ Jsui.spawnedJobs b) ≤ n
      rw [jobsWeight_append]
      have h1 := spawnedJobs_weight b
      rw [hj, jobsWeight_cons] at h
      omega

/-- The drain leaves an empty job queue. -/
theorem drain_jobs_nil (s : Jsui.EngState) : (Jsui.drain s).jobs = [] :=
  drainFuel_jobs_nil _ s le_rfl

/-- Claim C3 counterexample: on a tick with no due timer, `Engine::tick`
returns without draining the job queue — the pending job (which would
publish `"new"`) is still queued and the published tree is unchanged. -/
theorem claim_C3_counterexample :
    (Jsui.tick c3PendingState).jobs = [Jsui.ScriptL.cons (.setContents "new") .nil]
    ∧ (Jsui.tick c3PendingState).tree_json = "old"
    ∧ (Jsui.tick c3PendingState).dirty = false :=
  ⟨rfl, rfl, rfl⟩

/-- Claim C3 amended: `Engine::tick` drains the runtime's job queue to
completion only on a tick in which at least one timer was due; when no
timer is due it returns immediately, leaving every pending job in the
queue (and the rest of the state untouched except the timer filter). -/
theorem claim_C3_amended :
    (∀ s : Jsui.EngState,
      s.timers.filter (fun t => t.fire_at ≤ s.now) = [] →
      Jsui.tick s = {s with timers := s.timers.filter (fun t => ¬ t.fire_at ≤ s.now)})
    ∧ (∀ s : Jsui.EngState,
      s.timers.filter (fun t => t.fire_at ≤ s.now) ≠ [] →
      (Jsui.tick s).jobs = []) := by
  constructor
  · intro s h
    unfold Jsui.tick
    rw [h]
    simp
  · intro s h
    unfold Jsui.tick
    rcases hr : s.timers.filter (fun t => t.fire_at ≤ s.now) with _ | ⟨t, rest⟩
    · exact absurd hr h
    · simp only [hr, List.map_cons, List.isEmpty_cons, Bool.false_eq_true, if_false]
      exact drain_jobs_nil _

/-- Witness for C3's amended theorem: at `c3PendingState` no timer is due
and the tick leaves the state (with its pending job) as is; at `c3DueState`
the timer fires and the tick drains the queue to empty. -/
theorem claim_C3_witness :
    Jsui.tick c3PendingState =
      {c3PendingState with
        timers := c3PendingState.timers.filter (fun t => ¬ t.fire_at ≤ c3PendingState.now)}
    ∧ (Jsui.tick c3DueState).jobs = [] :=
  ⟨claim_C3_amended.1 c3PendingState rfl,
   claim_C3_amended.2 c3DueState (fun h => List.noConfusion h)⟩

/-! ## C5 — dispatch-then-republish ordering -/

/-- No native binding unsets the dirty flag. -/
theorem runAct_dirty_mono {s : Jsui.EngState} (a : Jsui.SAct) (h : s.dirty = true) :
    (Jsui.runAct s a).dirty = true := by
  cases a <;> simpa [Jsui.runAct] using h

/-- Scripts never unset the dirty flag. -/
theorem runScript_dirty_mono : ∀ (acts : Jsui.ScriptL) {s : Jsui.EngState},
    s.dirty = true → (Jsui.runScript s acts).dirty = true
  | .nil, _, h => h
  | .cons a tl, _, h => runScript_dirty_mono tl (runAct_dirty_mono a h)

/-- A script with a top-level publish leaves the dirty flag set. -/
theorem runScript_publish : ∀ (acts : Jsui.ScriptL) (s : Jsui.EngState),
    hasPublish acts → (Jsui.runScript s acts).dirty = true
  | .cons a tl, s, h => by
    cases h with
    | inl hp =>
      cases a with
      | setContents j => exact runScript_dirty_mono tl rfl
      | setTimeoutA ms cb => exact absurd hp (by simp [Jsui.SAct.isPublish])
      | clearTimeoutA i => exact absurd hp (by simp [Jsui.SAct.isPublish])
      | addEventListenerA e cb => exact absurd hp (by simp [Jsui.SAct.isPublish])
      | queueJob b => exact absurd hp (by simp [Jsui.SAct.isPublish])
    | inr hrest => exact runScript_publish tl _ hrest

/-- Callback batches never unset the dirty flag. -/
theorem runScripts_dirty_mono (cbs : List Jsui.ScriptL) : ∀ {s : Jsui.EngState},
    s.dirty = true → (Jsui.runScripts s cbs).dirty = true := by
  induction cbs with
  | nil => intro s h; exact h
  | cons c rest ih => intro s h; exact ih (runScript_dirty_mono c h)

/-- A callback batch containing a publishing script leaves the dirty flag
set. -/
theorem runScripts_publish (cbs : List Jsui.ScriptL) : ∀ s : Jsui.EngState,
    (∃ cb ∈ cbs, hasPublish cb) → (Jsui.runScripts s cbs).dirty = true := by
  induction cbs with
  | nil => rintro s ⟨cb, hmem, _⟩; cases hmem
  | cons c rest ih =>
    rintro s ⟨cb, hmem, hpub⟩
    rcases List.mem_cons.mp hmem with rfl | hmem'
    · exact runScripts_dirty_mono rest (runScript_publish cb s hpub)
    · exact ih _ ⟨cb, hmem', hpub⟩

/-- The job drain never unsets the dirty flag. -/
theorem drainFuel_dirty_mono : ∀ (fuel : Nat) {s : Jsui.EngState},
    s.dirty = true → (Jsui.drainFuel fuel s).dirty = true
  | 0, _, h => h
  | fuel + 1, s, h => by
    rcases hj : s.jobs with _ | ⟨b, rest⟩
    · simpa [Jsui.drainFuel, hj] using h
    · simp only [Jsui.drainFuel, hj]
      exact drainFuel_dirty_mono fuel (runScript_dirty_mono b (by simpa using h))

/-- `tick` never unsets the dirty flag. -/
theorem tick_dirty_mono {s : Jsui.EngState} (h : s.dirty = true) :
    (Jsui.tick s).dirty = true := by
  unfold Jsui.tick
  dsimp only
  split
  · exact h
  · exact drainFuel_dirty_mono _ (runScripts_dirty_mono _ h)

/-- Claim C5: (1) whenever any registered `"event"` listener's handler
calls the tree-publish binding during `dispatch_event`, the dirty flag
reads true immediately after `dispatch_event` returns — no later handler,
drained microtask or timer callback can unset it; (2) concretely, for a
state whose single listener publishes `j` and schedules a microtask
republishing `j2`, with an empty job queue and no due timer,
`dispatch_event` returns with the *newly* published tree `j2` visible, the
dirty flag set, and the job queue fully drained — all mutations from the
handler and from the microtask it scheduled are observable before the
caller reads the tree. -/
theorem claim_C5 :
    (∀ (s : Jsui.EngState) (nid : Nat) (ev : String),
      (∃ l ∈ s.listeners, l.event = "event" ∧ hasPublish l.callback) →
      (Jsui.dispatch_event s nid ev).dirty = true)
    ∧ (∀ (tj : String) (d : Bool) (timers : List Jsui.Timer) (ntid now nid : Nat)
        (ev j j2 : String),
      (∀ t ∈ timers, now < t.fire_at) →
      Jsui.dispatch_event ⟨tj, d, timers, ntid, [⟨"event", publishScript j j2⟩], [], now⟩ nid ev
        = ⟨j2, true, timers, ntid, [⟨"event", publishScript j j2⟩], [], now⟩) := by
  constructor
  · rintro s nid ev ⟨l, hl, hev, hpub⟩
    unfold Jsui.dispatch_event
    apply tick_dirty_mono
    have hmem : l.callback ∈ (s.listeners.filter (fun x => x.event = "event")).map
        (fun x => x.callback) :=
      List.mem_map.mpr ⟨l, List.mem_filter.mpr ⟨hl, by simp [hev]⟩, rfl⟩
    have hne : ((s.listeners.filter (fun x => x.event = "event")).map
        (fun x => x.callback)).isEmpty = false := by
      rcases hcb : (s.listeners.filter (fun x => x.event = "event")).map
          (fun x => x.callback) with _ | ⟨c, cs⟩
      · rw [hcb] at hmem; cases hmem
      · rw [hcb]; rfl
    rw [hne]
    simp only [Bool.false_eq_true, if_false]
    exact drainFuel_dirty_mono _ (runScripts_publish _ _ ⟨l.callback, hmem, hpub⟩)
  · intro tj d timers ntid now nid ev j j2 hnodue
    show Jsui.tick ⟨j2, true, timers, ntid, [⟨"event", publishScript j j2⟩], [], now⟩ = _
    unfold Jsui.tick
    have hready : timers.filter (fun t => t.fire_at ≤ now) = [] := by
      rw [List.filter_eq_nil_iff]
      intro t ht
      simp only [decide_eq_true_eq]
      exact Nat.not_le.mpr (hnodue t ht)
    have hkeep : timers.filter (fun t => ¬ t.fire_at ≤ now) = timers := by
      rw [List.filter_eq_self]
      intro t ht
      simp only [decide_eq_true_eq, Nat.not_le]
      exact hnodue t ht
    simp only [hready, hkeep, List.map_nil, List.isEmpty_nil, if_true]

/-- Witness for C5 at a concrete state: dispatching an event against a
single listener that publishes `"t1"` and then republishes `"t2"` from a
microtask yields dirty `true`, tree `"t2"`, and an empty job queue. -/
theorem claim_C5_witness :
    (Jsui.dispatch_event ⟨"old", false, [], 1, [⟨"event", publishScript "t1" "t2"⟩], [], 0⟩ 5 "PressIn"
      = ⟨"t2", true, [], 1, [⟨"event", publishScript "t1" "t2"⟩], [], 0⟩)
    ∧ (Jsui.dispatch_event ⟨"old", false, [], 1, [⟨"event", publishScript "t1" "t2"⟩], [], 0⟩ 5 "PressIn").dirty = true :=
  have h := claim_C5.2 "old" false [] 1 0 5 "PressIn" "t1" "t2" (fun t ht => absurd ht (by simp))
  ⟨h, claim_C5.1 _ 5 "PressIn" ⟨⟨"event", publishScript "t1" "t2"⟩, by simp, rfl, Or.inl trivial⟩⟩

/-! ## C1 — malformed tree JSON on the publish path -/

/-- Claim C1 counterexample: in the jsui generation the publish binding
(`renderer.setContents`) stores the malformed string `"{"` unparsed and
marks the engine dirty, and the next `read_and_layout` then *panics*
(`.expect("Failed to parse widget tree")`) — the parse failure on this
tree-publish path is fatal, not recovered. -/
theorem claim_C1_counterexample :
    (Jsui.setContentsCall (Jsui.EngState.init 0) "\x7b").dirty = true
    ∧ (Jsui.setContentsCall (Jsui.EngState.init 0) "\x7b").tree_json = "\x7b"
    ∧ (Jsui.read_and_layout "\x7b").isOk = false :=
  ⟨rfl, rfl, by decide⟩

/-- Claim C1 amended: in the juice generation (`Renderer::register`'s
`update` binding) a malformed tree JSON is recovered locally exactly as the
claim describes — the binding returns with the renderer state (previous
DOM, `should_update` flag, stored callback) unchanged and emits a
diagnostic containing the error plus a window of up to 40 characters on
each side of the failure column with a caret pointer.  In the jsui
generation, however, publishing never parses (`setContents` accepts any
string and sets the dirty flag) and the parse failure surfaces later in
`read_and_layout`, which panics — on that path a malformed tree is fatal to
the process. -/
theorem claim_C1_amended :
    (∀ (base : Juice.InheritedStyle) (st : Juice.RState) (content : String) (cb : Nat)
       (e : String × Nat),
      Juice.dom_new content base = .error e →
      Juice.renderer_update base st content cb = (st, some (Juice.mkErrLog content e.1 e.2)))
    ∧ (∀ (s : Jsui.EngState) (json : String),
        (Jsui.setContentsCall s json).tree_json = json
        ∧ (Jsui.setContentsCall s json).dirty = true)
    ∧ (∀ content : String, (jsonParse content).isOk = false →
        (Jsui.read_and_layout content).isOk = false) := by
  refine ⟨?_, ?_, ?_⟩
  · intro base st content cb e h
    unfold Juice.renderer_update
    rw [h]
  · intro s json
    exact ⟨rfl, rfl⟩
  · intro content h
    unfold Jsui.read_and_layout Jsui.parse_tree
    rcases hj : jsonParse content with e | j
    · rfl
    · rw [hj] at h
      cases h

/-- Witness for C1's amended theorem at the malformed input `"{"`: the juice
update binding leaves the (empty) renderer state unchanged and logs the
snippet, and the jsui read path errors. -/
theorem claim_C1_witness :
    Juice.renderer_update (Juice.InheritedStyle.new "font") ⟨none, false, none⟩ "\x7b" 0
      = (⟨none, false, none⟩, some (Juice.mkErrLog "\x7b" "key must be a string" 2))
    ∧ (Jsui.read_and_layout "\x7b").isOk = false :=
  ⟨claim_C1_amended.1 (Juice.InheritedStyle.new "font") ⟨none, false, none⟩ "\x7b" 0
      ("key must be a string", 2) rfl,
   claim_C1_amended.2.2 "\x7b" rfl⟩

/-! ## C8 — style inheritance -/

/-- The folded color is the nearest declared color (or the default). -/
theorem applyDecls_color (is : Juice.InheritedStyle) : ∀ anc : List Juice.StyleDecl,
    (applyDecls is anc).color = Juice.nearestOr (fun a => a.color) anc is.color
  | [] => rfl
  | a :: rest => by
    cases hc : a.color with
    | some c =>
      simp [applyDecls, Juice.InheritedStyle.clone_and_override, Juice.nearestOr, hc]
    | none =>
      simp [applyDecls, Juice.InheritedStyle.clone_and_override, Juice.nearestOr, hc,
        applyDecls_color is rest]

/-- The folded font is the nearest declared font (or the default). -/
theorem applyDecls_font (is : Juice.InheritedStyle) : ∀ anc : List Juice.StyleDecl,
    (applyDecls is anc).font_name = Juice.nearestOr (fun a => a.font) anc is.font_name
  | [] => rfl
  | a :: rest => by
    cases hc : a.font with
    | some c =>
      simp [applyDecls, Juice.InheritedStyle.clone_and_override, Juice.nearestOr, hc]
    | none =>
      simp [applyDecls, Juice.InheritedStyle.clone_and_override, Juice.nearestOr, hc,
        applyDecls_font is rest]

/-- The folded size is the nearest declared size (or the default). -/
theorem applyDecls_size (is : Juice.InheritedStyle) : ∀ anc : List Juice.StyleDecl,
    (applyDecls is anc).font_size = Juice.nearestOr (fun a => a.font_size) anc is.font_size
  | [] => rfl
  | a :: rest => by
    cases hc : a.font_size with
    | some c =>
      simp [applyDecls, Juice.InheritedStyle.clone_and_override, Juice.nearestOr, hc]
    | none =>
      simp [applyDecls, Juice.InheritedStyle.clone_and_override, Juice.nearestOr, hc,
        applyDecls_size is rest]

mutual

/-- The code-side text styles under any ancestor context equal the
spec-side nearest-ancestor resolution. -/
theorem build_spec : ∀ (n : Juice.Node) (anc : List Juice.StyleDecl)
    (is : Juice.InheritedStyle),
    Juice.textContexts (Juice.build_node n (applyDecls is anc)) = Juice.specTextStyles n anc is
  | .text t, anc, is => by
    simp [Juice.build_node, Juice.textContexts, Juice.textContextsList, Juice.specTextStyles,
      applyDecls_color, applyDecls_font, applyDecls_size]
  | .svg id markup w h, anc, is => by
    simp [Juice.build_node, Juice.textContexts, Juice.textContextsList, Juice.specTextStyles]
  | .element d children, anc, is => by
    show Juice.textContextsList (Juice.build_nodes children _) = _
    rw [show (applyDecls is anc).clone_and_override (d.color.map Juice.RgbColor.from_array)
          d.font d.font_size
        = applyDecls is (⟨d.color.map Juice.RgbColor.from_array, d.font, d.font_size⟩ :: anc)
      from rfl]
    exact build_spec_list children (⟨d.color.map Juice.RgbColor.from_array, d.font, d.font_size⟩ :: anc) is

/-- List version of `build_spec`. -/
theorem build_spec_list : ∀ (ns : Juice.NodeList) (anc : List Juice.StyleDecl)
    (is : Juice.InheritedStyle),
    Juice.textContextsList (Juice.build_nodes ns (applyDecls is anc))
      = Juice.specTextStylesList ns anc is
  | .nil, anc, is => rfl
  | .cons hd tl, anc, is => by
    show Juice.textContexts (Juice.build_node hd _) ++ Juice.textContextsList (Juice.build_nodes tl _) = _
    rw [build_spec hd anc is, build_spec_list tl anc is]
    rfl

end

/-- Claim C8: a text node's effective color, font and size as computed by
`build_node` equal the spec-side nearest-ancestor resolution — the nearest
ancestor element's declared override for that field, or the root default if
no ancestor declares one (a `Node::text` carries no style of its own, so a
style is never taken from the text node itself).  The root default is white
`[255,255,255]`, size 24, the engine default font; in particular an element
declaring color `[255,0,0]` around a text child with no override paints
that text red at size 24 in the default font. -/
theorem claim_C8 :
    (∀ (n : Juice.Node) (is : Juice.InheritedStyle),
      Juice.textContexts (Juice.build_node n is) = Juice.specTextStyles n [] is)
    ∧ (∀ df : String, Juice.InheritedStyle.new df = ⟨⟨255, 255, 255⟩, df, 24⟩)
    ∧ (∀ df t : String, Juice.textContexts (Juice.build_node
        (.element {color := some (255, 0, 0)} (.cons (.text t) .nil))
        (Juice.InheritedStyle.new df))
        = [⟨t, ⟨255, 0, 0⟩, df, 24⟩]) :=
  ⟨fun n is => build_spec n [] is, fun _ => rfl, fun _ _ => rfl⟩

/-! ## C6 / C9 — hit testing -/

/-- The guard `_node_at_point` evaluates first is exactly "point outside the
absolute box". -/
theorem hitGuard_iff (x y nx ny w h : ℚ) :
    (x < nx ∨ x ≥ nx + w ∨ y < ny ∨ y ≥ ny + h) ↔ ¬ Juice.InBox x y nx ny w h := by
  unfold Juice.InBox
  constructor
  · rintro (hc | hc | hc | hc) ⟨h1, h2, h3, h4⟩ <;> linarith
  · intro hn
    by_contra hc
    push_neg at hc
    exact hn ⟨hc.1, hc.2.1, hc.2.2.1, hc.2.2.2⟩

mutual

/-- Soundness of `_node_at_point`: a returned id is witnessed by a chain of
nodes that all contain the point, ending at a node carrying that id. -/
theorem nodeAtPoint_sound : ∀ (t : Juice.LTree) (x y px py : ℚ) (i : Nat),
    Juice.node_at_point_from t x y px py = some i → Juice.Hits x y px py t i
  | .mk layout ctx children, x, y, px, py, i => by
    unfold Juice.node_at_point_from
    dsimp only
    split
    · intro h
      cases h
    next hcond =>
      have hin : Juice.InBox x y (px + layout.x) (py + layout.y) layout.width layout.height := by
        by_contra hn
        exact hcond ((hitGuard_iff x y (px + layout.x) (py + layout.y)
          layout.width layout.height).mpr hn)
      rcases h1 : Juice.childHit children x y (px + layout.x) (py + layout.y) with _ | j
      · simp only [h1]
        intro h
        exact Juice.Hits.self px py layout ctx children i hin h
      · simp only [h1]
        intro h
        have hji : j = i := Option.some.inj h
        subst hji
        obtain ⟨c, hc, hh⟩ := childHit_sound children x y (px + layout.x) (py + layout.y) j h1
        exact Juice.Hits.child px py layout ctx children c j hin hc hh

/-- Soundness of the reverse-order child scan. -/
theorem childHit_sound : ∀ (cs : Juice.LTreeList) (x y px py : ℚ) (i : Nat),
    Juice.childHit cs x y px py = some i →
    ∃ c ∈ cs.toList, Juice.Hits x y px py c i
  | .nil, x, y, px, py, i => by
    intro h
    cases h
  | .cons hd tl, x, y, px, py, i => by
    unfold Juice.childHit
    rcases h1 : Juice.childHit tl x y px py with _ | j
    · simp only [h1]
      intro h
      exact ⟨hd, by simp [Juice.LTreeList.toList],
        nodeAtPoint_sound hd x y px py i h⟩
    · simp only [h1]
      intro h
      have hji : j = i := Option.some.inj h
      subst hji
      obtain ⟨c, hc, hh⟩ := childHit_sound tl x y px py j h1
      exact ⟨c, by simp only [Juice.LTreeList.toList, List.mem_cons]; exact Or.inr hc, hh⟩

end

/-- A node whose box does not contain the point yields no hit, regardless
of its subtree. -/
theorem nodeAtPoint_outside (t : Juice.LTree) (x y px py : ℚ)
    (h : ¬ Juice.InBox x y (px + t.layout.x) (py + t.layout.y)
      t.layout.width t.layout.height) :
    Juice.node_at_point_from t x y px py = none := by
  rcases t with ⟨layout, ctx, children⟩
  unfold Juice.node_at_point_from
  dsimp only
  rw [if_pos]
  exact (hitGuard_iff x y (px + layout.x) (py + layout.y) layout.width layout.height).mpr h

/-- A leaf whose context has no hittable id (a text node, an id-less
element or svg, or no context at all) is never returned. -/
theorem nodeAtPoint_leaf_noId (layout : Juice.LRect) (ctx : Option Juice.NodeContext)
    (hid : Juice.hittableId ctx = none) (x y px py : ℚ) :
    Juice.node_at_point_from (.mk layout ctx .nil) x y px py = none := by
  unfold Juice.node_at_point_from
  dsimp only
  split
  · rfl
  · exact hid

/-- Unfold one step of the reverse-order child scan. -/
theorem childHit_cons (hd : Juice.LTree) (tl : Juice.LTreeList) (x y px py : ℚ) :
    Juice.childHit (.cons hd tl) x y px py =
      match Juice.childHit tl x y px py with
      | some id => some id
      | none => Juice.node_at_point_from hd x y px py := rfl

/-- The empty child scan misses. -/
theorem childHit_nil (x y px py : ℚ) : Juice.childHit .nil x y px py = none := rfl

/-- Claim C6 counterexample: `c6OverhangTree` contains two overlapping
sibling elements with stable ids 1 and 2 (2 declared after 1) and the query
point (15, 15) lies inside both of their (identical) absolute boxes — yet
`hit` returns `none`, not 2, because the point lies outside the root's box
and the recursion is ancestor-clipped (see C9). -/
theorem claim_C6_counterexample :
    Juice.InBox 15 15 (0 + 5) (0 + 5) 20 20
    ∧ ¬ Juice.InBox 15 15 0 0 10 10
    ∧ Juice.node_at_point c6OverhangTree 15 15 = none :=
  ⟨by decide, by decide, by decide⟩

/-- Claim C6 amended (the scenario additionally requires the point to lie
inside the ancestors' boxes; everything else is as claimed):
(a) for a root whose box contains the point, with exactly the two
overlapping id-carrying sibling elements (2 declared after 1) both
containing the point, `hit` returns 2 — children are tried in reverse
declaration order;
(b) a returned id is always witnessed by a chain of nodes all containing
the point, ending at a node that carries that id in an `Element`/`Svg`
context — so a node is returned only if the point is in its absolute box
and it has a non-absent stable id;
(c) a text leaf is never directly hittable;
(d) a point over a text child resolves to the nearest enclosing ancestor
that declared an id;
(e) if no hit chain exists (no id-carrying node under the point), `hit`
returns none. -/
theorem claim_C6_amended :
    (∀ (r0 r1 r2 : Juice.LRect) (ctx0 : Option Juice.NodeContext)
       (bg1 bg2 : Option Juice.RgbColor) (br1 br2 x y : ℚ),
      Juice.InBox x y r0.x r0.y r0.width r0.height →
      Juice.InBox x y (r0.x + r1.x) (r0.y + r1.y) r1.width r1.height →
      Juice.InBox x y (r0.x + r2.x) (r0.y + r2.y) r2.width r2.height →
      Juice.node_at_point
        (.mk r0 ctx0 (.cons (.mk r1 (some (.element bg1 br1 (some 1))) .nil)
          (.cons (.mk r2 (some (.element bg2 br2 (some 2))) .nil) .nil)))
        x y = some 2)
    ∧ (∀ (t : Juice.LTree) (x y : ℚ) (i : Nat),
        Juice.node_at_point t x y = some i → Juice.Hits x y 0 0 t i)
    ∧ (∀ (layout : Juice.LRect) (content : String) (col : Juice.RgbColor)
         (fn : String) (fs x y px py : ℚ),
        Juice.node_at_point_from (.mk layout (some (.text content col fn fs)) .nil)
          x y px py = none)
    ∧ (∀ (r0 r1 : Juice.LRect) (bg : Option Juice.RgbColor) (br : ℚ) (i : Nat)
         (content : String) (col : Juice.RgbColor) (fn : String) (fs x y : ℚ),
        Juice.InBox x y r0.x r0.y r0.width r0.height →
        Juice.node_at_point
          (.mk r0 (some (.element bg br (some i)))
            (.cons (.mk r1 (some (.text content col fn fs)) .nil) .nil)) x y = some i)
    ∧ (∀ (t : Juice.LTree) (x y : ℚ), (¬ ∃ i, Juice.Hits x y 0 0 t i) →
        Juice.node_at_point t x y = none) := by
  refine ⟨?_, ?_, ?_, ?_, ?_⟩
  · intro r0 r1 r2 ctx0 bg1 bg2 br1 br2 x y h0 h1 h2
    have h0' : Juice.InBox x y (0 + r0.x) (0 + r0.y) r0.width r0.height := by
      rwa [zero_add, zero_add]
    have h2'' : Juice.InBox x y (0 + r0.x + r2.x) (0 + r0.y + r2.y) r2.width r2.height := by
      rw [zero_add, zero_add]
      exact h2
    have hc2 : Juice.node_at_point_from (.mk r2 (some (.element bg2 br2 (some 2))) .nil)
        x y (0 + r0.x) (0 + r0.y) = some 2 := by
      unfold Juice.node_at_point_from
      dsimp only
      rw [if_neg (fun hc => (hitGuard_iff x y (0 + r0.x + r2.x) (0 + r0.y + r2.y)
        r2.width r2.height).mp hc h2'')]
      rfl
    have h2' : Juice.childHit (.cons (.mk r2 (some (.element bg2 br2 (some 2))) .nil) .nil)
        x y (0 + r0.x) (0 + r0.y) = some 2 := by
      rw [childHit_cons, childHit_nil]
      exact hc2
    unfold Juice.node_at_point Juice.node_at_point_from
    dsimp only
    rw [if_neg (fun hc => (hitGuard_iff x y (0 + r0.x) (0 + r0.y)
      r0.width r0.height).mp hc h0'), childHit_cons, h2']
  · intro t x y i h
    exact nodeAtPoint_sound t x y 0 0 i h
  · intro layout content col fn fs x y px py
    exact nodeAtPoint_leaf_noId layout (some (.text content col fn fs)) rfl x y px py
  · intro r0 r1 bg br i content col fn fs x y h0
    have h0' : Juice.InBox x y (0 + r0.x) (0 + r0.y) r0.width r0.height := by
      rwa [zero_add, zero_add]
    have ht : Juice.childHit
        (.cons (.mk r1 (some (.text content col fn fs)) .nil) .nil) x y (0 + r0.x) (0 + r0.y)
        = none := by
      rw [childHit_cons, childHit_nil]
      exact nodeAtPoint_leaf_noId r1 (some (.text content col fn fs)) rfl x y (0 + r0.x) (0 + r0.y)
    unfold Juice.node_at_point Juice.node_at_point_from
    dsimp only
    rw [if_neg (fun hc => (hitGuard_iff x y (0 + r0.x) (0 + r0.y)
      r0.width r0.height).mp hc h0'), ht]
    rfl
  · intro t x y hno
    rcases h : Juice.node_at_point t x y with _ | i
    · rfl
    · exact absurd ⟨i, nodeAtPoint_sound t x y 0 0 i h⟩ hno

/-- Witness for C6's amended theorem at concrete boxes: a 100×100 root with
two overlapping 40×40 siblings (ids 1 and 2) both containing (30, 30). -/
theorem claim_C6_witness :
    Juice.node_at_point
      (.mk ⟨0, 0, 100, 100⟩ none
        (.cons (.mk ⟨10, 10, 40, 40⟩ (some (.element none 0 (some 1))) .nil)
          (.cons (.mk ⟨20, 20, 40, 40⟩ (some (.element none 0 (some 2))) .nil) .nil)))
      30 30 = some 2
    ∧ Juice.node_at_point
        (.mk ⟨0, 0, 100, 100⟩ (some (.element none 0 (some 9)))
          (.cons (.mk ⟨10, 10, 40, 40⟩ (some (.text "hi" ⟨255, 255, 255⟩ "f" 24)) .nil) .nil))
        30 30 = some 9 :=
  ⟨claim_C6_amended.1 ⟨0, 0, 100, 100⟩ ⟨10, 10, 40, 40⟩ ⟨20, 20, 40, 40⟩ none none none 0 0
      30 30 (by decide) (by decide) (by decide),
   claim_C6_amended.2.2.2.1 ⟨0, 0, 100, 100⟩ ⟨10, 10, 40, 40⟩ none 0 9 "hi"
      ⟨255, 255, 255⟩ "f" 24 30 30 (by decide)⟩

/-- Claim C9: hit testing is ancestor-clipped.  (1) A returned id is
witnessed by a `Hits` chain: the point lies inside the matched node's
absolute box AND inside the box of every ancestor on the way down, since
the recursion returns `none` as soon as the point leaves the current box;
(2) in particular a returned id implies the point is inside the root's
box; (3) any point outside the root's box yields `none` regardless of the
subtree (so a child overhanging its parent is not hittable there). -/
theorem claim_C9 :
    (∀ (t : Juice.LTree) (x y px py : ℚ) (i : Nat),
      Juice.node_at_point_from t x y px py = some i → Juice.Hits x y px py t i)
    ∧ (∀ (t : Juice.LTree) (x y : ℚ) (i : Nat),
        Juice.node_at_point t x y = some i →
        Juice.InBox x y (0 + t.layout.x) (0 + t.layout.y) t.layout.width t.layout.height)
    ∧ (∀ (t : Juice.LTree) (x y : ℚ),
        ¬ Juice.InBox x y (0 + t.layout.x) (0 + t.layout.y) t.layout.width t.layout.height →
        Juice.node_at_point t x y = none) := by
  refine ⟨?_, ?_, ?_⟩
  · exact fun t x y px py i h => nodeAtPoint_sound t x y px py i h
  · intro t x y i h
    have hh := nodeAtPoint_sound t x y 0 0 i h
    cases hh with
    | self px py layout ctx children i hin hid => exact hin
    | child px py layout ctx children c i hin hmem hc => exact hin
  · intro t x y h
    exact nodeAtPoint_outside t x y 0 0 h

/-- Witness for C9 at a concrete tree: the point (15, 15) lies outside the
10×10 root, so the hit test returns `none` even though the root itself
carries an id. -/
theorem claim_C9_witness :
    Juice.node_at_point (.mk ⟨0, 0, 10, 10⟩ (some (.element none 0 (some 4))) .nil) 15 15
      = none
    ∧ Juice.Hits 5 5 0 0 (.mk ⟨0, 0, 10, 10⟩ (some (.element none 0 (some 4))) .nil) 4 :=
  ⟨claim_C9.2.2 (.mk ⟨0, 0, 10, 10⟩ (some (.element none 0 (some 4))) .nil) 15 15
      (by decide),
   claim_C9.1 (.mk ⟨0, 0, 10, 10⟩ (some (.element none 0 (some 4))) .nil) 5 5 0 0 4 (by decide)⟩

/-! ## C10 — framebuffer bounds safety -/

/-- A `set` at another index leaves `getD` unchanged. -/
theorem getD_set_ne (l : List Nat) (i j a : Nat) (h : i ≠ j) :
    (l.set i a).getD j 0 = l.getD j 0 := by
  simp [List.getD_eq_getElem?_getD, List.getElem?_set_ne h]

/-- A length-preserving operation can only change indices inside the
buffer. -/
theorem changed_lt {l l' : List Nat} (hlen : l'.length = l.length) {i : Nat}
    (h : l'.getD i 0 ≠ l.getD i 0) : i < l.length := by
  by_contra hge
  push_neg at hge
  rw [List.getD_eq_getElem?_getD, List.getD_eq_getElem?_getD,
    List.getElem?_eq_none (by omega), List.getElem?_eq_none hge] at h
  exact h rfl

/-- An in-bounds coordinate pair maps to an in-bounds buffer index. -/
theorem coord_idx_lt {w h xn yn len : Nat} (hwf : len = w * h)
    (hx : xn < w) (hy : yn < h) : yn * w + xn < len := by
  have h1 : yn * w + xn < (yn + 1) * w := by
    rw [Nat.succ_mul]
    omega
  have h2 : (yn + 1) * w ≤ h * w := Nat.mul_le_mul_right _ hy
  have h3 : h * w = len := by rw [hwf, Nat.mul_comm]
  omega

/-- `blend_pixel` skips out-of-canvas coordinates entirely. -/
theorem blend_pixel_oob (c : Juice.Canvas) (x y : Int) (color : Juice.RgbColor) (alpha : Nat)
    (h : x < 0 ∨ y < 0 ∨ x ≥ (c.width : Int) ∨ y ≥ (c.height : Int)) :
    Juice.blend_pixel c x y color alpha = c := by
  unfold Juice.blend_pixel
  rw [if_pos h]

/-- When the `blend_pixel` bounds check passes, the buffer index it writes
is inside the buffer. -/
theorem blend_pixel_idx_lt (c : Juice.Canvas) (x y : Int) (hwf : c.Wf)
    (h : ¬ (x < 0 ∨ y < 0 ∨ x ≥ (c.width : Int) ∨ y ≥ (c.height : Int))) :
    y.toNat * c.width + x.toNat < c.pixels.length := by
  push_neg at h
  obtain ⟨hx0, hy0, hxw, hyh⟩ := h
  exact coord_idx_lt hwf (by omega) (by omega)

/-- `blend_pixel` preserves the canvas shape. -/
theorem blend_pixel_dims (c : Juice.Canvas) (x y : Int) (color : Juice.RgbColor) (alpha : Nat) :
    (Juice.blend_pixel c x y color alpha).width = c.width
    ∧ (Juice.blend_pixel c x y color alpha).height = c.height
    ∧ (Juice.blend_pixel c x y color alpha).pixels.length = c.pixels.length := by
  unfold Juice.blend_pixel
  split
  · exact ⟨rfl, rfl, rfl⟩
  · exact ⟨rfl, rfl, by simp⟩

/-- `blend_pixel` alters no pixel other than the one at its target index. -/
theorem blend_pixel_other (c : Juice.Canvas) (x y : Int) (color : Juice.RgbColor)
    (alpha i : Nat) (h : i ≠ y.toNat * c.width + x.toNat) :
    (Juice.blend_pixel c x y color alpha).pixels.getD i 0 = c.pixels.getD i 0 := by
  unfold Juice.blend_pixel
  split
  · rfl
  · exact getD_set_ne _ _ _ _ (Ne.symm h)

/-- The blit inner-loop body preserves the canvas shape. -/
theorem blit_rgba_step_dims (data : Nat → Nat) (src_w : Nat) (dst_x dst_y : Int)
    (row col : Nat) (c : Juice.Canvas) :
    (Juice.blit_rgba_step data src_w dst_x dst_y row col c).width = c.width
    ∧ (Juice.blit_rgba_step data src_w dst_x dst_y row col c).height = c.height
    ∧ (Juice.blit_rgba_step data src_w dst_x dst_y row col c).pixels.length
        = c.pixels.length := by
  unfold Juice.blit_rgba_step
  dsimp only
  split_ifs <;> exact ⟨rfl, rfl, by simp⟩

/-- The premultiplied blit inner-loop body preserves the canvas shape. -/
theorem blit_premultiplied_step_dims (data : Nat → Nat) (src_w : Nat) (dst_x dst_y : Int)
    (row col : Nat) (c : Juice.Canvas) :
    (Juice.blit_premultiplied_step data src_w dst_x dst_y row col c).width = c.width
    ∧ (Juice.blit_premultiplied_step data src_w dst_x dst_y row col c).height = c.height
    ∧ (Juice.blit_premultiplied_step data src_w dst_x dst_y row col c).pixels.length
        = c.pixels.length := by
  unfold Juice.blit_premultiplied_step
  dsimp only
  split_ifs <;> exact ⟨rfl, rfl, by simp⟩

/-- If the non-premultiplied blit body changes a pixel, the destination
coordinates passed both bounds checks and the index is the guarded one. -/
theorem blit_rgba_step_changed (data : Nat → Nat) (src_w : Nat) (dst_x dst_y : Int)
    (row col : Nat) (c : Juice.Canvas) (i : Nat)
    (h : (Juice.blit_rgba_step data src_w dst_x dst_y row col c).pixels.getD i 0
      ≠ c.pixels.getD i 0) :
    0 ≤ dst_y + (row : Int) ∧ dst_y + (row : Int) < c.height
    ∧ 0 ≤ dst_x + (col : Int) ∧ dst_x + (col : Int) < c.width
    ∧ i = (dst_y + (row : Int)).toNat * c.width + (dst_x + (col : Int)).toNat := by
  unfold Juice.blit_rgba_step at h
  dsimp only at h
  split_ifs at h with h1 h2 h3 h4
  · exact absurd rfl h
  · exact absurd rfl h
  · exact absurd rfl h
  · push_neg at h1 h2
    refine ⟨h1.1, h1.2, h2.1, h2.2, ?_⟩
    by_contra hne
    rw [getD_set_ne _ _ _ _ (Ne.symm hne)] at h
    exact h rfl
  · push_neg at h1 h2
    refine ⟨h1.1, h1.2, h2.1, h2.2, ?_⟩
    by_contra hne
    rw [getD_set_ne _ _ _ _ (Ne.symm hne)] at h
    exact h rfl

/-- Same for the premultiplied blit body. -/
theorem blit_premultiplied_step_changed (data : Nat → Nat) (src_w : Nat) (dst_x dst_y : Int)
    (row col : Nat) (c : Juice.Canvas) (i : Nat)
    (h : (Juice.blit_premultiplied_step data src_w dst_x dst_y row col c).pixels.getD i 0
      ≠ c.pixels.getD i 0) :
    0 ≤ dst_y + (row : Int) ∧ dst_y + (row : Int) < c.height
    ∧ 0 ≤ dst_x + (col : Int) ∧ dst_x + (col : Int) < c.width
    ∧ i = (dst_y + (row : Int)).toNat * c.width + (dst_x + (col : Int)).toNat := by
  unfold Juice.blit_premultiplied_step at h
  dsimp only at h
  split_ifs at h with h1 h2 h3 h4
  · exact absurd rfl h
  · exact absurd rfl h
  · exact absurd rfl h
  · push_neg at h1 h2
    refine ⟨h1.1, h1.2, h2.1, h2.2, ?_⟩
    by_contra hne
    rw [getD_set_ne _ _ _ _ (Ne.symm hne)] at h
    exact h rfl
  · push_neg at h1 h2
    refine ⟨h1.1, h1.2, h2.1, h2.2, ?_⟩
    by_contra hne
    rw [getD_set_ne _ _ _ _ (Ne.symm hne)] at h
    exact h rfl

/-- A shape-preserving loop body gives a shape-preserving loop. -/
theorem loopN_dims (f : Nat → Juice.Canvas → Juice.Canvas)
    (hf : ∀ (k : Nat) (c : Juice.Canvas), (f k c).width = c.width
      ∧ (f k c).height = c.height ∧ (f k c).pixels.length = c.pixels.length) :
    ∀ (n : Nat) (c : Juice.Canvas), (Juice.loopN f c n).width = c.width
      ∧ (Juice.loopN f c n).height = c.height
      ∧ (Juice.loopN f c n).pixels.length = c.pixels.length := by
  intro n
  induction n with
  | zero => intro c; exact ⟨rfl, rfl, rfl⟩
  | succ m ih =>
    intro c
    have h1 := ih c
    have h2 := hf m (Juice.loopN f c m)
    exact ⟨h2.1.trans h1.1, h2.2.1.trans h1.2.1, h2.2.2.trans h1.2.2⟩

/-- A pixel changed by a loop was changed by one of its iterations, at the
canvas dimensions the loop maintains. -/
theorem loopN_changed (f : Nat → Juice.Canvas → Juice.Canvas) (W H : Nat)
    (S : Nat → Nat → Prop)
    (hdims : ∀ (k : Nat) (c : Juice.Canvas), (f k c).width = c.width
      ∧ (f k c).height = c.height ∧ (f k c).pixels.length = c.pixels.length)
    (hf : ∀ (k : Nat) (c : Juice.Canvas) (i : Nat), c.width = W → c.height = H →
      (f k c).pixels.getD i 0 ≠ c.pixels.getD i 0 → S k i) :
    ∀ (n : Nat) (c : Juice.Canvas) (i : Nat), c.width = W → c.height = H →
      (Juice.loopN f c n).pixels.getD i 0 ≠ c.pixels.getD i 0 → ∃ k, k < n ∧ S k i := by
  intro n
  induction n with
  | zero => intro c i _ _ h; exact absurd rfl h
  | succ m ih =>
    intro c i hW hH h
    have hmd := loopN_dims f hdims m c
    by_cases hs : (f m (Juice.loopN f c m)).pixels.getD i 0
        = (Juice.loopN f c m).pixels.getD i 0
    · obtain ⟨k, hk, hS⟩ := ih c i hW hH (fun heq => h ((hs.trans heq : _)))
      exact ⟨k, by omega, hS⟩
    · exact ⟨m, by omega, hf m (Juice.loopN f c m) i (hmd.1.trans hW) (hmd.2.1.trans hH) hs⟩

/-- A pixel changed by `blit_rgba` lies at bounds-checked destination
coordinates inside the canvas and inside the source rectangle. -/
theorem blit_rgba_changed (c : Juice.Canvas) (data : Nat → Nat) (src_w src_h : Nat)
    (dst_x dst_y : Int) (i : Nat)
    (h : (Juice.blit_rgba c data src_w src_h dst_x dst_y).pixels.getD i 0
      ≠ c.pixels.getD i 0) :
    ∃ row, row < src_h ∧ ∃ col, col < src_w ∧
      0 ≤ dst_y + (row : Int) ∧ dst_y + (row : Int) < c.height
      ∧ 0 ≤ dst_x + (col : Int) ∧ dst_x + (col : Int) < c.width
      ∧ i = (dst_y + (row : Int)).toNat * c.width + (dst_x + (col : Int)).toNat := by
  have hinner_dims : ∀ (row : Nat) (c1 : Juice.Canvas),
      (Juice.loopN (fun col c2 => Juice.blit_rgba_step data src_w dst_x dst_y row col c2) c1 src_w).width = c1.width
      ∧ (Juice.loopN (fun col c2 => Juice.blit_rgba_step data src_w dst_x dst_y row col c2) c1 src_w).height = c1.height
      ∧ (Juice.loopN (fun col c2 => Juice.blit_rgba_step data src_w dst_x dst_y row col c2) c1 src_w).pixels.length = c1.pixels.length :=
    fun row c1 => loopN_dims _ (fun col c2 => blit_rgba_step_dims data src_w dst_x dst_y row col c2) src_w c1
  obtain ⟨row, hrow, hS⟩ := loopN_changed _ c.width c.height
    (fun row i => ∃ col, col < src_w ∧
      0 ≤ dst_y + (row : Int) ∧ dst_y + (row : Int) < c.height
      ∧ 0 ≤ dst_x + (col : Int) ∧ dst_x + (col : Int) < c.width
      ∧ i = (dst_y + (row : Int)).toNat * c.width + (dst_x + (col : Int)).toNat)
    hinner_dims
    (fun row c1 i hW hH hch => by
      obtain ⟨col, hcol, hS⟩ := loopN_changed _ c.width c.height
        (fun col i => 0 ≤ dst_y + (row : Int) ∧ dst_y + (row : Int) < c.height
          ∧ 0 ≤ dst_x + (col : Int) ∧ dst_x + (col : Int) < c.width
          ∧ i = (dst_y + (row : Int)).toNat * c.width + (dst_x + (col : Int)).toNat)
        (fun col c2 => blit_rgba_step_dims data src_w dst_x dst_y row col c2)
        (fun col c2 i hW2 hH2 hch2 => by
          have hc := blit_rgba_step_changed data src_w dst_x dst_y row col c2 i hch2
          rw [hW2] at hc
          rw [hH2] at hc
          exact hc)
        src_w c1 i hW hH hch
      exact ⟨col, hcol, hS⟩)
    src_h c i rfl rfl h
  exact ⟨row, hrow, hS⟩

/-- A pixel changed by `blit_premultiplied_rgba` lies at bounds-checked
destination coordinates inside the canvas and inside the source
rectangle. -/
theorem blit_premultiplied_changed (c : Juice.Canvas) (data : Nat → Nat) (src_w src_h : Nat)
    (dst_x dst_y : Int) (i : Nat)
    (h : (Juice.blit_premultiplied_rgba c data src_w src_h dst_x dst_y).pixels.getD i 0
      ≠ c.pixels.getD i 0) :
    ∃ row, row < src_h ∧ ∃ col, col < src_w ∧
      0 ≤ dst_y + (row : Int) ∧ dst_y + (row : Int) < c.height
      ∧ 0 ≤ dst_x + (col : Int) ∧ dst_x + (col : Int) < c.width
      ∧ i = (dst_y + (row : Int)).toNat * c.width + (dst_x + (col : Int)).toNat := by
  have hinner_dims : ∀ (row : Nat) (c1 : Juice.Canvas),
      (Juice.loopN (fun col c2 => Juice.blit_premultiplied_step data src_w dst_x dst_y row col c2) c1 src_w).width = c1.width
      ∧ (Juice.loopN (fun col c2 => Juice.blit_premultiplied_step data src_w dst_x dst_y row col c2) c1 src_w).height = c1.height
      ∧ (Juice.loopN (fun col c2 => Juice.blit_premultiplied_step data src_w dst_x dst_y row col c2) c1 src_w).pixels.length = c1.pixels.length :=
    fun row c1 => loopN_dims _ (fun col c2 => blit_premultiplied_step_dims data src_w dst_x dst_y row col c2) src_w c1
  obtain ⟨row, hrow, hS⟩ := loopN_changed _ c.width c.height
    (fun row i => ∃ col, col < src_w ∧
      0 ≤ dst_y + (row : Int) ∧ dst_y + (row : Int) < c.height
      ∧ 0 ≤ dst_x + (col : Int) ∧ dst_x + (col : Int) < c.width
      ∧ i = (dst_y + (row : Int)).toNat * c.width + (dst_x + (col : Int)).toNat)
    hinner_dims
    (fun row c1 i hW hH hch => by
      obtain ⟨col, hcol, hS⟩ := loopN_changed _ c.width c.height
        (fun col i => 0 ≤ dst_y + (row : Int) ∧ dst_y + (row : Int) < c.height
          ∧ 0 ≤ dst_x + (col : Int) ∧ dst_x + (col : Int) < c.width
          ∧ i = (dst_y + (row : Int)).toNat * c.width + (dst_x + (col : Int)).toNat)
        (fun col c2 => blit_premultiplied_step_dims data src_w dst_x dst_y row col c2)
        (fun col c2 i hW2 hH2 hch2 => by
          have hc := blit_premultiplied_step_changed data src_w dst_x dst_y row col c2 i hch2
          rw [hW2] at hc
          rw [hH2] at hc
          exact hc)
        src_w c1 i hW hH hch
      exact ⟨col, hcol, hS⟩)
    src_h c i rfl rfl h
  exact ⟨row, hrow, hS⟩

/-- `blit_rgba` preserves the canvas shape. -/
theorem blit_rgba_dims (c : Juice.Canvas) (data : Nat → Nat) (src_w src_h : Nat)
    (dst_x dst_y : Int) :
    (Juice.blit_rgba c data src_w src_h dst_x dst_y).width = c.width
    ∧ (Juice.blit_rgba c data src_w src_h dst_x dst_y).height = c.height
    ∧ (Juice.blit_rgba c data src_w src_h dst_x dst_y).pixels.length = c.pixels.length :=
  loopN_dims _ (fun row c1 => loopN_dims _
    (fun col c2 => blit_rgba_step_dims data src_w dst_x dst_y row col c2) src_w c1) src_h c

/-- `blit_premultiplied_rgba` preserves the canvas shape. -/
theorem blit_premultiplied_dims (c : Juice.Canvas) (data : Nat → Nat) (src_w src_h : Nat)
    (dst_x dst_y : Int) :
    (Juice.blit_premultiplied_rgba c data src_w src_h dst_x dst_y).width = c.width
    ∧ (Juice.blit_premultiplied_rgba c data src_w src_h dst_x dst_y).height = c.height
    ∧ (Juice.blit_premultiplied_rgba c data src_w src_h dst_x dst_y).pixels.length
        = c.pixels.length :=
  loopN_dims _ (fun row c1 => loopN_dims _
    (fun col c2 => blit_premultiplied_step_dims data src_w dst_x dst_y row col c2) src_w c1) src_h c

/-- One `draw_iter` step preserves the canvas shape. -/
theorem draw_pixel_step_dims (c : Juice.Canvas) (p : Int × Int × Juice.RgbColor) :
    (Juice.draw_pixel_step c p).width = c.width
    ∧ (Juice.draw_pixel_step c p).height = c.height
    ∧ (Juice.draw_pixel_step c p).pixels.length = c.pixels.length := by
  unfold Juice.draw_pixel_step
  split_ifs <;> exact ⟨rfl, rfl, by simp⟩

/-- `draw_iter` preserves the canvas shape. -/
theorem draw_iter_dims : ∀ (pxs : List (Int × Int × Juice.RgbColor)) (c : Juice.Canvas),
    (Juice.draw_iter c pxs).width = c.width
    ∧ (Juice.draw_iter c pxs).height = c.height
    ∧ (Juice.draw_iter c pxs).pixels.length = c.pixels.length
  | [], c => ⟨rfl, rfl, rfl⟩
  | p :: rest, c => by
    have hrec := draw_iter_dims rest (Juice.draw_pixel_step c p)
    have hstep := draw_pixel_step_dims c p
    exact ⟨hrec.1.trans hstep.1, hrec.2.1.trans hstep.2.1, hrec.2.2.trans hstep.2.2⟩

/-- A pixel changed by `draw_iter` corresponds to one of the supplied
pixels, whose coordinates passed the bounds check. -/
theorem draw_iter_changed : ∀ (pxs : List (Int × Int × Juice.RgbColor)) (c : Juice.Canvas)
    (i : Nat),
    (Juice.draw_iter c pxs).pixels.getD i 0 ≠ c.pixels.getD i 0 →
    ∃ p ∈ pxs, (p.1 ≥ 0 ∧ p.1 < (c.width : Int) ∧ p.2.1 ≥ 0 ∧ p.2.1 < (c.height : Int))
      ∧ i = p.2.1.toNat * c.width + p.1.toNat
  | [], _, _, h => absurd rfl h
  | p :: rest, c, i, h => by
    have hdims := draw_pixel_step_dims c p
    by_cases hs : (Juice.draw_pixel_step c p).pixels.getD i 0 = c.pixels.getD i 0
    · have hch : (Juice.draw_iter (Juice.draw_pixel_step c p) rest).pixels.getD i 0
          ≠ (Juice.draw_pixel_step c p).pixels.getD i 0 := by
        intro heq
        exact h (heq.trans hs)
      obtain ⟨q, hq, hcond, hidx⟩ := draw_iter_changed rest (Juice.draw_pixel_step c p) i hch
      rw [hdims.1, hdims.2.1] at hcond
      rw [hdims.1] at hidx
      exact ⟨q, List.mem_cons_of_mem _ hq, hcond, hidx⟩
    · unfold Juice.draw_pixel_step at hs
      split_ifs at hs with hg
      · refine ⟨p, List.mem_cons_self _ _, hg, ?_⟩
        by_contra hne
        exact hs (getD_set_ne _ _ _ _ (Ne.symm hne))
      · exact absurd rfl hs

/-- `fillRange` preserves the buffer length. -/
theorem fillRange_length (l : List Nat) (start stop px : Nat) :
    (Juice.fillRange l start stop px).length = l.length := by
  simp [Juice.fillRange]

/-- `fillRange` leaves every index outside `[start, stop)` unchanged. -/
theorem fillRange_getD_out (l : List Nat) (start stop px i : Nat)
    (h : ¬ (start ≤ i ∧ i < stop)) :
    (Juice.fillRange l start stop px).getD i 0 = l.getD i 0 := by
  simp only [Juice.fillRange, List.getD_eq_getElem?_getD, List.getElem?_mapIdx]
  rcases hli : l[i]? with _ | v <;> simp [hli, h]

/-- `loopRowsFill` preserves the buffer length. -/
theorem loopRowsFill_length (l : List Nat) (width x0 x1 y0 : Nat) :
    ∀ (n px : Nat), (Juice.loopRowsFill l width x0 x1 y0 n px).length = l.length
  | 0, _ => rfl
  | n + 1, px => by
    show (Juice.fillRange _ _ _ _).length = _
    rw [fillRange_length, loopRowsFill_length l width x0 x1 y0 n px]

/-- `loopRowsFill` changes only indices inside one of its row segments. -/
theorem loopRowsFill_getD_out (l : List Nat) (width x0 x1 y0 : Nat) :
    ∀ (n px i : Nat),
    (∀ k, k < n → ¬ (width * (y0 + k) + x0 ≤ i ∧ i < width * (y0 + k) + x1)) →
    (Juice.loopRowsFill l width x0 x1 y0 n px).getD i 0 = l.getD i 0
  | 0, _, _, _ => rfl
  | n + 1, px, i, h => by
    show (Juice.fillRange _ _ _ _).getD i 0 = _
    rw [fillRange_getD_out _ _ _ _ _ (h n (by omega)),
      loopRowsFill_getD_out l width x0 x1 y0 n px i (fun k hk => h k (by omega))]

/-- `fill_solid` preserves the canvas shape. -/
theorem fill_solid_dims (c : Juice.Canvas) (area : Juice.EGRect) (color : Juice.RgbColor) :
    (Juice.fill_solid c area color).width = c.width
    ∧ (Juice.fill_solid c area color).height = c.height
    ∧ (Juice.fill_solid c area color).pixels.length = c.pixels.length := by
  unfold Juice.fill_solid
  dsimp only
  split
  · exact ⟨rfl, rfl, rfl⟩
  · exact ⟨rfl, rfl, loopRowsFill_length _ _ _ _ _ _ _⟩

/-- Clipping against the canvas rectangle keeps the filled region inside
the canvas: the clipped top-left is non-negative and the clipped
bottom-right is strictly inside `w × h`. -/
theorem intersection_canvas_bounds (a : Juice.EGRect) (w h : Nat) (brx bry : Int)
    (hbr : (a.intersection ⟨0, 0, w, h⟩).bottomRight? = some (brx, bry)) :
    0 ≤ (a.intersection ⟨0, 0, w, h⟩).x ∧ 0 ≤ (a.intersection ⟨0, 0, w, h⟩).y
    ∧ (a.intersection ⟨0, 0, w, h⟩).x ≤ brx ∧ brx < (w : Int)
    ∧ (a.intersection ⟨0, 0, w, h⟩).y ≤ bry ∧ bry < (h : Int) := by
  rcases ha : a.bottomRight? with _ | ⟨ax2, ay2⟩
  · have hz : a.intersection ⟨0, 0, w, h⟩ = ⟨0, 0, 0, 0⟩ := by
      unfold Juice.EGRect.intersection
      rw [ha]
    rw [hz] at hbr
    simp [Juice.EGRect.bottomRight?] at hbr
  · by_cases hwh : w = 0 ∨ h = 0
    · have hcv : (Juice.EGRect.mk 0 0 w h).bottomRight? = none := by
        unfold Juice.EGRect.bottomRight?
        rw [if_pos hwh]
      have hz : a.intersection ⟨0, 0, w, h⟩ = ⟨0, 0, 0, 0⟩ := by
        unfold Juice.EGRect.intersection
        rw [ha, hcv]
      rw [hz] at hbr
      simp [Juice.EGRect.bottomRight?] at hbr
    · have hcv : (Juice.EGRect.mk 0 0 w h).bottomRight?
          = some (0 + (w : Int) - 1, 0 + (h : Int) - 1) := by
        unfold Juice.EGRect.bottomRight?
        rw [if_neg hwh]
      by_cases hov : max a.x 0 ≤ min ax2 (0 + (w : Int) - 1)
          ∧ max a.y 0 ≤ min ay2 (0 + (h : Int) - 1)
      · have hrect : a.intersection ⟨0, 0, w, h⟩ =
            ⟨max a.x 0, max a.y 0,
             (min ax2 (0 + (w : Int) - 1) - max a.x 0 + 1).toNat,
             (min ay2 (0 + (h : Int) - 1) - max a.y 0 + 1).toNat⟩ := by
          unfold Juice.EGRect.intersection
          rw [ha, hcv]
          dsimp only
          rw [if_pos hov]
        rw [hrect] at hbr ⊢
        unfold Juice.EGRect.bottomRight? at hbr
        split_ifs at hbr with hz2
        cases hbr
        show 0 ≤ a.x ⊔ 0 ∧ 0 ≤ a.y ⊔ 0
          ∧ a.x ⊔ 0 ≤ a.x ⊔ 0 + ((ax2 ⊓ (0 + (w : Int) - 1) - a.x ⊔ 0 + 1).toNat : Int) - 1
          ∧ a.x ⊔ 0 + ((ax2 ⊓ (0 + (w : Int) - 1) - a.x ⊔ 0 + 1).toNat : Int) - 1 < (w : Int)
          ∧ a.y ⊔ 0 ≤ a.y ⊔ 0 + ((ay2 ⊓ (0 + (h : Int) - 1) - a.y ⊔ 0 + 1).toNat : Int) - 1
          ∧ a.y ⊔ 0 + ((ay2 ⊓ (0 + (h : Int) - 1) - a.y ⊔ 0 + 1).toNat : Int) - 1 < (h : Int)
        refine ⟨?_, ?_, ?_, ?_, ?_, ?_⟩ <;> omega
      · have hrect : a.intersection ⟨0, 0, w, h⟩ = ⟨0, 0, 0, 0⟩ := by
          unfold Juice.EGRect.intersection
          rw [ha, hcv]
          dsimp only
          rw [if_neg hov]
        rw [hrect] at hbr
        simp [Juice.EGRect.bottomRight?] at hbr

/-- Every row segment filled by `fill_solid` ends at or before the end of
the pixel buffer: with `u32`-sized canvas dimensions, the clipped rectangle
yields `row_end = width*(y0+k) + x1 ≤ pixels.length` for every filled row,
so the Rust slice `pixels[row_start..row_end]` is in range. -/
theorem fill_rowEnd_le (c : Juice.Canvas) (area : Juice.EGRect) (brx bry : Int)
    (hwf : c.Wf) (hw : c.width < 4294967296) (hh : c.height < 4294967296)
    (hbr : (area.intersection ⟨0, 0, c.width, c.height⟩).bottomRight? = some (brx, bry))
    (k : Nat)
    (hk : k < Juice.u32ofInt bry + 1
        - Juice.u32ofInt (area.intersection ⟨0, 0, c.width, c.height⟩).y) :
    c.width * (Juice.u32ofInt (area.intersection ⟨0, 0, c.width, c.height⟩).y + k)
      + (Juice.u32ofInt brx + 1) ≤ c.pixels.length := by
  obtain ⟨hx0, hy0, hxbr, hbrw, hybr, hbrh⟩ :=
    intersection_canvas_bounds area c.width c.height brx bry hbr
  have hux : Juice.u32ofInt brx = brx.toNat := by
    unfold Juice.u32ofInt
    omega
  have huy : Juice.u32ofInt bry = bry.toNat := by
    unfold Juice.u32ofInt
    omega
  have huc : Juice.u32ofInt (area.intersection ⟨0, 0, c.width, c.height⟩).y
      = (area.intersection ⟨0, 0, c.width, c.height⟩).y.toNat := by
    unfold Juice.u32ofInt
    omega
  rw [huy, huc] at hk
  rw [hux, huc]
  have hlen : c.pixels.length = c.width * c.height := hwf
  have h1 : brx.toNat + 1 ≤ c.width := by omega
  have h2 : (area.intersection ⟨0, 0, c.width, c.height⟩).y.toNat + k + 1 ≤ c.height := by
    omega
  calc c.width * ((area.intersection ⟨0, 0, c.width, c.height⟩).y.toNat + k) + (brx.toNat + 1)
      ≤ c.width * ((area.intersection ⟨0, 0, c.width, c.height⟩).y.toNat + k) + c.width := by
        omega
    _ = c.width * ((area.intersection ⟨0, 0, c.width, c.height⟩).y.toNat + k + 1) := by ring
    _ ≤ c.width * c.height := Nat.mul_le_mul_left _ h2
    _ = c.pixels.length := hlen.symm

/-- Claim C10: every pixel-writing primitive of the software framebuffer
(`blend_pixel`, `blit_rgba`, `blit_premultiplied_rgba`, and the
`DrawTarget` `draw_iter`/`fill_solid` implementations — jsui's
`Framebuffer` is the same code) bounds-checks each destination coordinate
and silently skips pixels outside the width×height canvas; for arbitrary
positions (negative coordinates and boxes past the canvas edge included),
painting never indexes the pixel buffer out of range and only alters
in-bounds pixels.  Conjuncts: (1) `blend_pixel` at an out-of-canvas
coordinate is the identity; (2) it preserves the canvas shape; (3) on a
well-formed canvas any pixel it changes lies at an in-bounds index and its
coordinates passed the bounds check; (4)/(5) both blits preserve the
shape; (6)/(7) any pixel either blit changes lies at an in-bounds index;
(8) `draw_iter` preserves the shape and (9) changes only in-bounds
indices; (10) `fill_solid` preserves the shape; (11) every row segment it
fills ends at or before the end of the buffer (so the Rust slice
`pixels[row_start..row_end]` and its `fill` are in range); and (12) any
pixel `fill_solid` changes lies at an in-bounds index. -/
theorem claim_C10 :
    (∀ (c : Juice.Canvas) (x y : Int) (color : Juice.RgbColor) (alpha : Nat),
      (x < 0 ∨ y < 0 ∨ x ≥ (c.width : Int) ∨ y ≥ (c.height : Int)) →
      Juice.blend_pixel c x y color alpha = c)
    ∧ (∀ (c : Juice.Canvas) (x y : Int) (color : Juice.RgbColor) (alpha : Nat),
        (Juice.blend_pixel c x y color alpha).width = c.width
        ∧ (Juice.blend_pixel c x y color alpha).height = c.height
        ∧ (Juice.blend_pixel c x y color alpha).pixels.length = c.pixels.length)
    ∧ (∀ (c : Juice.Canvas) (x y : Int) (color : Juice.RgbColor) (alpha i : Nat),
        c.Wf →
        (Juice.blend_pixel c x y color alpha).pixels.getD i 0 ≠ c.pixels.getD i 0 →
        i < c.pixels.length ∧ 0 ≤ x ∧ x < (c.width : Int) ∧ 0 ≤ y ∧ y < (c.height : Int))
    ∧ (∀ (c : Juice.Canvas) (data : Nat → Nat) (src_w src_h : Nat) (dst_x dst_y : Int),
        (Juice.blit_rgba c data src_w src_h dst_x dst_y).width = c.width
        ∧ (Juice.blit_rgba c data src_w src_h dst_x dst_y).height = c.height
        ∧ (Juice.blit_rgba c data src_w src_h dst_x dst_y).pixels.length = c.pixels.length)
    ∧ (∀ (c : Juice.Canvas) (data : Nat → Nat) (src_w src_h : Nat) (dst_x dst_y : Int),
        (Juice.blit_premultiplied_rgba c data src_w src_h dst_x dst_y).width = c.width
        ∧ (Juice.blit_premultiplied_rgba c data src_w src_h dst_x dst_y).height = c.height
        ∧ (Juice.blit_premultiplied_rgba c data src_w src_h dst_x dst_y).pixels.length
            = c.pixels.length)
    ∧ (∀ (c : Juice.Canvas) (data : Nat → Nat) (src_w src_h : Nat) (dst_x dst_y : Int)
        (i : Nat), c.Wf →
        (Juice.blit_rgba c data src_w src_h dst_x dst_y).pixels.getD i 0
          ≠ c.pixels.getD i 0 →
        i < c.pixels.length)
    ∧ (∀ (c : Juice.Canvas) (data : Nat → Nat) (src_w src_h : Nat) (dst_x dst_y : Int)
        (i : Nat), c.Wf →
        (Juice.blit_premultiplied_rgba c data src_w src_h dst_x dst_y).pixels.getD i 0
          ≠ c.pixels.getD i 0 →
        i < c.pixels.length)
    ∧ (∀ (c : Juice.Canvas) (pxs : List (Int × Int × Juice.RgbColor)),
        (Juice.draw_iter c pxs).width = c.width
        ∧ (Juice.draw_iter c pxs).height = c.height
        ∧ (Juice.draw_iter c pxs).pixels.length = c.pixels.length)
    ∧ (∀ (c : Juice.Canvas) (pxs : List (Int × Int × Juice.RgbColor)) (i : Nat),
        c.Wf →
        (Juice.draw_iter c pxs).pixels.getD i 0 ≠ c.pixels.getD i 0 →
        i < c.pixels.length)
    ∧ (∀ (c : Juice.Canvas) (area : Juice.EGRect) (color : Juice.RgbColor),
        (Juice.fill_solid c area color).width = c.width
        ∧ (Juice.fill_solid c area color).height = c.height
        ∧ (Juice.fill_solid c area color).pixels.length = c.pixels.length)
    ∧ (∀ (c : Juice.Canvas) (area : Juice.EGRect) (brx bry : Int),
        c.Wf → c.width < 4294967296 → c.height < 4294967296 →
        (area.intersection ⟨0, 0, c.width, c.height⟩).bottomRight? = some (brx, bry) →
        ∀ k : Nat, k < Juice.u32ofInt bry + 1
            - Juice.u32ofInt (area.intersection ⟨0, 0, c.width, c.height⟩).y →
          c.width * (Juice.u32ofInt (area.intersection ⟨0, 0, c.width, c.height⟩).y + k)
            + (Juice.u32ofInt brx + 1) ≤ c.pixels.length)
    ∧ (∀ (c : Juice.Canvas) (area : Juice.EGRect) (color : Juice.RgbColor) (i : Nat),
        c.Wf → c.width < 4294967296 → c.height < 4294967296 →
        (Juice.fill_solid c area color).pixels.getD i 0 ≠ c.pixels.getD i 0 →
        i < c.pixels.length) := by
  refine ⟨?_, ?_, ?_, ?_, ?_, ?_, ?_, ?_, ?_, ?_, ?_, ?_⟩
  · exact fun c x y color alpha h => blend_pixel_oob c x y color alpha h
  · exact fun c x y color alpha => blend_pixel_dims c x y color alpha
  · intro c x y color alpha i hwf hch
    by_cases hb : x < 0 ∨ y < 0 ∨ x ≥ (c.width : Int) ∨ y ≥ (c.height : Int)
    · rw [blend_pixel_oob c x y color alpha hb] at hch
      exact absurd rfl hch
    · have hidx : i = y.toNat * c.width + x.toNat := by
        by_contra hne
        exact hch (blend_pixel_other c x y color alpha i hne)
      have hlt := blend_pixel_idx_lt c x y hwf hb
      push_neg at hb
      exact ⟨by rw [hidx]; exact hlt, hb.1, hb.2.2.1, hb.2.1, hb.2.2.2⟩
  · exact fun c data src_w src_h dst_x dst_y => blit_rgba_dims c data src_w src_h dst_x dst_y
  · exact fun c data src_w src_h dst_x dst_y =>
      blit_premultiplied_dims c data src_w src_h dst_x dst_y
  · intro c data src_w src_h dst_x dst_y i hwf hch
    obtain ⟨row, hrow, col, hcol, hy0, hyh, hx0, hxw, hidx⟩ :=
      blit_rgba_changed c data src_w src_h dst_x dst_y i hch
    rw [hidx]
    exact coord_idx_lt hwf (by omega) (by omega)
  · intro c data src_w src_h dst_x dst_y i hwf hch
    obtain ⟨row, hrow, col, hcol, hy0, hyh, hx0, hxw, hidx⟩ :=
      blit_premultiplied_changed c data src_w src_h dst_x dst_y i hch
    rw [hidx]
    exact coord_idx_lt hwf (by omega) (by omega)
  · exact fun c pxs => draw_iter_dims pxs c
  · intro c pxs i hwf hch
    obtain ⟨p, hmem, ⟨hx0, hxw, hy0, hyh⟩, hidx⟩ := draw_iter_changed pxs c i hch
    rw [hidx]
    exact coord_idx_lt hwf (by omega) (by omega)
  · exact fun c area color => fill_solid_dims c area color
  · exact fun c area brx bry hwf hw hh hbr k hk =>
      fill_rowEnd_le c area brx bry hwf hw hh hbr k hk
  · intro c area color i hwf hw hh hch
    rcases hbr : (area.intersection ⟨0, 0, c.width, c.height⟩).bottomRight? with _ | ⟨brx, bry⟩
    · have hfs : Juice.fill_solid c area color = c := by
        simp only [Juice.fill_solid, hbr]
      rw [hfs] at hch
      exact absurd rfl hch
    · by_contra hge
      push_neg at hge
      apply hch
      have hfs : (Juice.fill_solid c area color).pixels
          = Juice.loopRowsFill c.pixels c.width
              (Juice.u32ofInt (area.intersection ⟨0, 0, c.width, c.height⟩).x)
              (Juice.u32ofInt brx + 1)
              (Juice.u32ofInt (area.intersection ⟨0, 0, c.width, c.height⟩).y)
              (Juice.u32ofInt bry + 1
                - Juice.u32ofInt (area.intersection ⟨0, 0, c.width, c.height⟩).y)
              (Juice.to_xrgb color.r color.g color.b) := by
        simp only [Juice.fill_solid, hbr]
      rw [hfs]
      apply loopRowsFill_getD_out
      intro k hk hseg
      have hend := fill_rowEnd_le c area brx bry hwf hw hh hbr k hk
      omega

/-- Witness for C10 on a concrete 2×2 canvas: blending at x = -1 is skipped
and leaves the canvas unchanged, and the pixel changed by an in-bounds
blend lies at the in-bounds index 3 with both coordinates inside the
canvas. -/
theorem claim_C10_witness :
    Juice.blend_pixel ⟨2, 2, [0, 0, 0, 0]⟩ (-1) 0 ⟨255, 0, 0⟩ 255 = ⟨2, 2, [0, 0, 0, 0]⟩
    ∧ (3 < (Juice.Canvas.mk 2 2 [0, 0, 0, 0]).pixels.length
       ∧ (0 : Int) ≤ 1 ∧ (1 : Int) < ((Juice.Canvas.mk 2 2 [0, 0, 0, 0]).width : Int)
       ∧ (0 : Int) ≤ 1 ∧ (1 : Int) < ((Juice.Canvas.mk 2 2 [0, 0, 0, 0]).height : Int)) :=
  ⟨claim_C10.1 ⟨2, 2, [0, 0, 0, 0]⟩ (-1) 0 ⟨255, 0, 0⟩ 255 (by decide),
   claim_C10.2.2.1 ⟨2, 2, [0, 0, 0, 0]⟩ 1 1 ⟨255, 0, 0⟩ 255 3 (by rfl) (by decide)⟩

/-- Witness for C2 at concrete strings: "abc" has neither suffix and is
silently substituted with auto, and "zzpx" strips to the unparsable "zz"
and is also substituted with auto. -/
theorem claim_C2_witness :
    Juice.parse_dimension "abc" = .auto ∧ Juice.parse_dimension "zzpx" = .auto :=
  ⟨claim_C2_amended.2.1 "abc" (by decide) (by decide),
   claim_C2_amended.2.2.1 "zzpx" "zz".data (by decide) (by decide)⟩
